import Mathlib

/-!
Verification of the tabletop RPG session-manager API (Express + Prisma).

Shallow embedding: each Prisma table is a list of records inside a `Store`;
each controller function from the repository is translated into a pure Lean
function from a store and a request to an HTTP status code and an updated
store.  Auto-increment primary keys are modelled with explicit counters.
Foreign-key actions follow the repository's SQL migration: required
references are ON DELETE RESTRICT, optional references are ON DELETE SET
NULL, and inserts/updates reject values that reference no row.
`Math.random()` is modelled as an explicit stream of naturals: the draw for
one die of `m` sides is `rng i % m + 1`, mirroring
`Math.floor(Math.random() * diceSides) + 1`.
-/

namespace RPGApi

/-- JavaScript truthiness of an optional string (absent and `""` are falsy). -/
def truthyStr : Option String → Bool
  | none => false
  | some s => !s.isEmpty

/-- JavaScript truthiness of an optional number (absent and `0` are falsy). -/
def truthyNat : Option Nat → Bool
  | none => false
  | some n => n != 0

/-! ## Data model (prisma/schema.prisma) -/

/-- Row of the `User` table (authorization-relevant columns). -/
structure User where
  id : Nat
  username : String
  email : String
  deriving Repr, DecidableEq

/-- Row of the `Session` table. -/
structure Session where
  id : Nat
  title : String
  description : Option String
  scheduledAt : Option String
  status : String
  gmId : Nat
  deriving Repr, DecidableEq

/-- Row of the `SessionParticipants` table. -/
structure Participant where
  id : Nat
  sessionId : Nat
  userId : Nat
  characterId : Option Nat
  role : String
  deriving Repr, DecidableEq

/-- Row of the `Character` table. -/
structure Character where
  id : Nat
  name : String
  race : String
  cls : String
  level : Nat
  background : Option String
  isAlive : Bool
  userId : Nat
  sessionId : Option Nat
  deriving Repr, DecidableEq

/-- Row of the `DiceRoll` table; `rolls` and `modifier` record the
`metadata` JSON written by the dice controller. -/
structure DiceRoll where
  id : Nat
  rollExpression : String
  result : Int
  rolls : List Nat
  modifier : Int
  userId : Nat
  sessionId : Nat
  characterId : Option Nat
  deriving Repr, DecidableEq

/-- The relational store, with auto-increment counters for the ids the
modelled operations create. -/
structure Store where
  users : List User
  sessions : List Session
  participants : List Participant
  characters : List Character
  diceRolls : List DiceRoll
  nextSessionId : Nat
  nextParticipantId : Nat
  nextDiceRollId : Nat
  deriving Repr, DecidableEq

/-! ## Repository lookups (Prisma query helpers) -/

/-- `prisma.session.findUnique({ where: { id } })`. -/
def findSession (st : Store) (sid : Nat) : Option Session :=
  st.sessions.find? (fun s => s.id == sid)

/-- `prisma.user.findUnique({ where: { id } })`. -/
def findUser (st : Store) (uid : Nat) : Option User :=
  st.users.find? (fun u => u.id == uid)

/-- `prisma.character.findUnique({ where: { id } })`. -/
def findCharacter (st : Store) (cid : Nat) : Option Character :=
  st.characters.find? (fun c => c.id == cid)

/-- `prisma.character.findFirst({ where: { id, userId } })`. -/
def findCharacterOwned (st : Store) (cid uid : Nat) : Option Character :=
  st.characters.find? (fun c => c.id == cid && c.userId == uid)

/-- `prisma.sessionParticipants.findUnique({ where: { id } })`. -/
def findParticipant (st : Store) (pid : Nat) : Option Participant :=
  st.participants.find? (fun p => p.id == pid)

/-- `prisma.sessionParticipants.findFirst({ where: { sessionId, userId } })`. -/
def findParticipantRow (st : Store) (sid uid : Nat) : Option Participant :=
  st.participants.find? (fun p => p.sessionId == sid && p.userId == uid)

/-- `prisma.sessionParticipants.findFirst({ where: { sessionId, userId, role: 'admin' } })`. -/
def findSessionAdminRow (st : Store) (sid uid : Nat) : Option Participant :=
  st.participants.find? (fun p => p.sessionId == sid && p.userId == uid && p.role == "admin")

/-- `prisma.sessionParticipants.findFirst({ where: { userId, role: 'admin' } })`:
the system-admin probe used by the user and character controllers. -/
def findAnyAdminRow (st : Store) (uid : Nat) : Option Participant :=
  st.participants.find? (fun p => p.userId == uid && p.role == "admin")

/-! ## Dice-expression parsing (diceRollController)

The controller first tests the anchored regex `^\d+d\d+([+-]\d+)?$` and the
utility `calculateDiceRoll` then re-matches the unanchored
`(\d+)d(\d+)([+-]\d+)?`.  Both are modelled by one head-matcher: JavaScript's
greedy `\d+` never needs to backtrack here, because shrinking a digit run
leaves a digit where the pattern next demands `d`, a sign, or nothing. -/

/-- Greedy `\d+`-style split of a leading digit run. -/
def spanDigits : List Char → List Char × List Char
  | [] => ([], [])
  | c :: cs =>
    if c.isDigit then
      let r := spanDigits cs
      (c :: r.1, r.2)
    else ([], c :: cs)

/-- Value of a digit run, as computed by `parseInt`. -/
def digitsVal (ds : List Char) : Nat :=
  ds.foldl (fun a c => 10 * a + (c.toNat - 48)) 0

/-- Match `(\d+)d(\d+)([+-]\d+)?` at the head of the character list,
returning `(count, sides, modifier)` and the unconsumed suffix. -/
def tryMatchAt (cs : List Char) : Option ((Nat × Nat × Int) × List Char) :=
  let s1 := spanDigits cs
  if s1.1.isEmpty then none else
  match s1.2 with
  | 'd' :: r2 =>
    let s2 := spanDigits r2
    if s2.1.isEmpty then none else
    (match s2.2 with
     | '+' :: r4 =>
       let s3 := spanDigits r4
       if s3.1.isEmpty then some ((digitsVal s1.1, digitsVal s2.1, 0), s2.2)
       else some ((digitsVal s1.1, digitsVal s2.1, (digitsVal s3.1 : Int)), s3.2)
     | '-' :: r4 =>
       let s3 := spanDigits r4
       if s3.1.isEmpty then some ((digitsVal s1.1, digitsVal s2.1, 0), s2.2)
       else some ((digitsVal s1.1, digitsVal s2.1, -(digitsVal s3.1 : Int)), s3.2)
     | r3 => some ((digitsVal s1.1, digitsVal s2.1, 0), r3))
  | _ => none

/-- The anchored test `/^\d+d\d+([+-]\d+)?$/.test(expression)`, returning the
captured `(count, sides, modifier)` when the whole string matches. -/
def diceExprParse (s : String) : Option (Nat × Nat × Int) :=
  match tryMatchAt s.toList with
  | some (r, []) => some r
  | _ => none

/-- Leftmost unanchored match of `(\d+)d(\d+)([+-]\d+)?`
(`expression.match(diceRegex)` inside `calculateDiceRoll`). -/
def findDiceMatch : List Char → Option (Nat × Nat × Int)
  | [] => none
  | c :: cs =>
    match tryMatchAt (c :: cs) with
    | some (r, _) => some r
    | none => findDiceMatch cs

/-- Outcome of `calculateDiceRoll`: `result` is the returned total, `rolls`
and `modifier` are the `details` stored as the roll's metadata. -/
structure DiceOutcome where
  result : Int
  rolls : List Nat
  modifier : Int
  deriving Repr, DecidableEq

/-- `Math.floor(Math.random() * diceSides) + 1`, repeated `n` times over the
random stream `rng`. -/
def rollsFrom (rng : Nat → Nat) (m n : Nat) : List Nat :=
  (List.range n).map (fun i => rng i % m + 1)

/-- `calculateDiceRoll` (src/unnamed/part_000, lines 10-49): re-match the
unanchored regex, reject non-positive `numberOfDice`/`diceSides` by throwing
(`.error`), otherwise roll the dice and add the modifier. -/
def calculateDiceRoll (rng : Nat → Nat) (expression : String) : Except Unit DiceOutcome :=
  match findDiceMatch expression.toList with
  | none => .error ()
  | some (n, m, k) =>
    if n == 0 || m == 0 then .error ()
    else
      let rolls := rollsFrom rng m n
      let sum : Int := (rolls.foldl (· + ·) 0 : Nat)
      .ok { result := sum + k, rolls := rolls, modifier := k }

/-! ## Repository mutations

Foreign-key actions are those of the repository's migration:
`SessionParticipants.sessionId/userId`, `DiceRoll.sessionId/userId`,
`Character.userId` and `Session.gmId` are ON DELETE RESTRICT;
`Character.sessionId`, `SessionParticipants.characterId` and
`DiceRoll.characterId` are ON DELETE SET NULL.  A statement that violates
RESTRICT throws, which the controllers' catch-all turns into a 500. -/

/-- FK existence probe for a session id. -/
def sessionExists (st : Store) (sid : Nat) : Bool :=
  st.sessions.any (fun s => s.id == sid)

/-- FK existence probe for a user id. -/
def userExists (st : Store) (uid : Nat) : Bool :=
  st.users.any (fun u => u.id == uid)

/-- FK existence probe for a character id. -/
def characterExists (st : Store) (cid : Nat) : Bool :=
  st.characters.any (fun c => c.id == cid)

/-- Insert-time FK check for a `SessionParticipants` row. -/
def participantFKOk (st : Store) (sid uid : Nat) (cid : Option Nat) : Bool :=
  sessionExists st sid && userExists st uid &&
    (match cid with
     | none => true
     | some c => characterExists st c)

/-- Append a participant row with the next auto-increment id. -/
def insertParticipant (st : Store) (sid uid : Nat) (cid : Option Nat) (role : String) : Store :=
  { st with
    participants := st.participants ++
      [{ id := st.nextParticipantId, sessionId := sid, userId := uid,
         characterId := cid, role := role }],
    nextParticipantId := st.nextParticipantId + 1 }

/-- `sessionParticipants.deleteMany`/`delete`: no incoming FKs, always succeeds. -/
def deleteParticipantsWhere (st : Store) (pred : Participant → Bool) : Store :=
  { st with participants := st.participants.filter (fun p => !pred p) }

/-- `diceRoll.deleteMany`: no incoming FKs, always succeeds. -/
def deleteDiceRollsWhere (st : Store) (pred : DiceRoll → Bool) : Store :=
  { st with diceRolls := st.diceRolls.filter (fun d => !pred d) }

/-- `character.deleteMany`/`delete`: incoming optional FKs
(`SessionParticipants.characterId`, `DiceRoll.characterId`) are SET NULL. -/
def deleteCharactersWhere (st : Store) (pred : Character → Bool) : Store :=
  let doomed := fun cid => st.characters.any (fun c => pred c && c.id == cid)
  { st with
    characters := st.characters.filter (fun c => !pred c),
    participants := st.participants.map (fun p =>
      match p.characterId with
      | some cid => if doomed cid then { p with characterId := none } else p
      | none => p),
    diceRolls := st.diceRolls.map (fun d =>
      match d.characterId with
      | some cid => if doomed cid then { d with characterId := none } else d
      | none => d) }

/-- `session.deleteMany`/`delete`: RESTRICT on referencing participant and
dice-roll rows, SET NULL on `Character.sessionId`. -/
def deleteSessionsWhere (st : Store) (pred : Session → Bool) : Except Unit Store :=
  let doomedId := fun sid => st.sessions.any (fun s => pred s && s.id == sid)
  if st.participants.any (fun p => doomedId p.sessionId) ||
     st.diceRolls.any (fun d => doomedId d.sessionId) then
    .error ()
  else
    .ok { st with
      sessions := st.sessions.filter (fun s => !pred s),
      characters := st.characters.map (fun c =>
        match c.sessionId with
        | some sid => if doomedId sid then { c with sessionId := none } else c
        | none => c) }

/-- `user.delete`: RESTRICT on every referencing row. -/
def deleteUserRow (st : Store) (uid : Nat) : Except Unit Store :=
  if st.characters.any (fun c => c.userId == uid) ||
     st.participants.any (fun p => p.userId == uid) ||
     st.diceRolls.any (fun d => d.userId == uid) ||
     st.sessions.any (fun s => s.gmId == uid) then
    .error ()
  else
    .ok { st with users := st.users.filter (fun u => !(u.id == uid)) }

/-- The `include: { participants: true }` relation load of a session. -/
def includedParticipants (st : Store) (sid : Nat) : List Participant :=
  st.participants.filter (fun p => p.sessionId == sid)

/-! ## sessionController (src/unnamed/part_001) -/

/-- Body of `POST /sessions`. -/
structure SessionCreateReq where
  title : Option String
  description : Option String
  scheduledAt : Option String
  status : Option String

/-- Body of `PUT /sessions/:id`; outer `none` is an absent key (`undefined`). -/
structure SessionUpdateReq where
  title : Option String
  description : Option (Option String)
  scheduledAt : Option (Option String)
  status : Option String

/-- Field application of `sessionController.updateSession`'s `updateData`. -/
def applySessionUpdate (s : Session) (req : SessionUpdateReq) : Session :=
  { s with
    title := if truthyStr req.title then req.title.getD s.title else s.title,
    description :=
      match req.description with
      | none => s.description
      | some v => v,
    scheduledAt :=
      match req.scheduledAt with
      | none => s.scheduledAt
      | some none => none
      | some (some d) => if d.isEmpty then none else some d,
    status := if truthyStr req.status then req.status.getD s.status else s.status }

/-- `sessionController.createSession`: create the session with the caller as
`gmId`, then auto-enroll the caller as a participant with role "mj". -/
def scCreateSession (st : Store) (uid : Nat) (req : SessionCreateReq) : Nat × Store :=
  if !truthyStr req.title then (400, st)
  else if !userExists st uid then (500, st)
  else
    let sid := st.nextSessionId
    let st1 := { st with
      sessions := st.sessions ++
        [{ id := sid, title := req.title.getD "",
           description := req.description,
           scheduledAt := if truthyStr req.scheduledAt then req.scheduledAt else none,
           status := if truthyStr req.status then req.status.getD "" else "planifiée",
           gmId := uid }],
      nextSessionId := sid + 1 }
    (201, insertParticipant st1 sid uid none "mj")

/-- `sessionController.getSessionById`: the permission check is commented out
in the source, so the principal is never consulted. -/
def scGetSessionById (st : Store) (_principal : Option Nat) (idParam : Option Nat) :
    Nat × Option Session :=
  match idParam with
  | none => (400, none)
  | some sid =>
    match findSession st sid with
    | none => (404, none)
    | some s => (200, some s)

/-- `GET /sessions/:id` as registered in `Router/sessionRoutes.ts`: the
`isAuthenticated` middleware rejects principal-less requests with 401 before
the controller runs. -/
def routeGetSessionById (st : Store) (principal : Option Nat) (idParam : Option Nat) :
    Nat × Option Session :=
  match principal with
  | none => (401, none)
  | some _ => scGetSessionById st principal idParam

/-- `sessionController.updateSession`: only the GM or a session-admin may
update; the admin flag comes from the first included participant row of the
caller. -/
def scUpdateSession (st : Store) (uid : Nat) (idParam : Option Nat)
    (req : SessionUpdateReq) : Nat × Store :=
  match idParam with
  | none => (400, st)
  | some sid =>
    match findSession st sid with
    | none => (404, st)
    | some session =>
      let isGM := session.gmId == uid
      let participantData := (includedParticipants st sid).find? (fun p => p.userId == uid)
      let isAdmin := participantData.map (fun p => p.role) == some "admin"
      if !isGM && !isAdmin then (403, st)
      else
        (200, { st with
          sessions := st.sessions.map (fun s =>
            if s.id == sid then applySessionUpdate s req else s) })

/-- Body of both add-participant entry points. -/
structure AddParticipantBody where
  userId : Option Nat
  characterId : Option Nat
  role : Option String

/-- `sessionController.addParticipant` (`POST /sessions/:id/participants`):
permission `isSelf OR isGM OR isAdmin`; duplicate check; on a
self-enrollment by a non-GM the stored role is forced to "joueur". -/
def scAddParticipant (st : Store) (currentUserId : Nat) (idParam : Option Nat)
    (body : AddParticipantBody) : Nat × Store :=
  match idParam with
  | none => (400, st)
  | some sid =>
    if !(truthyNat body.userId && truthyStr body.role) then (400, st)
    else
      let targetUserId := body.userId.getD 0
      let role := body.role.getD ""
      match findSession st sid with
      | none => (404, st)
      | some session =>
        let isGM := session.gmId == currentUserId
        let isSelf := targetUserId == currentUserId
        let participantData := (includedParticipants st sid).find? (fun p => p.userId == currentUserId)
        let isAdmin := participantData.map (fun p => p.role) == some "admin"
        if !isSelf && !isGM && !isAdmin then (403, st)
        else if (findUser st targetUserId).isNone then (404, st)
        else if truthyNat body.characterId &&
            (findCharacterOwned st (body.characterId.getD 0) targetUserId).isNone then (404, st)
        else
          match findParticipantRow st sid targetUserId with
          | some _ => (400, st)
          | none =>
            if !participantFKOk st sid targetUserId body.characterId then (500, st)
            else
              let storedRole := if isSelf && !isGM then "joueur" else role
              (201, insertParticipant st sid targetUserId body.characterId storedRole)

/-- `sessionController.deleteSession`: GM or session-admin; removes dependent
participant and dice-roll rows, detaches characters, deletes the session. -/
def scDeleteSession (st : Store) (uid : Nat) (idParam : Option Nat) : Nat × Store :=
  match idParam with
  | none => (400, st)
  | some sid =>
    match findSession st sid with
    | none => (404, st)
    | some session =>
      let isGM := session.gmId == uid
      let participantData := (includedParticipants st sid).find? (fun p => p.userId == uid)
      let isAdmin := participantData.map (fun p => p.role) == some "admin"
      if !isGM && !isAdmin then (403, st)
      else
        let st1 := deleteParticipantsWhere st (fun p => p.sessionId == sid)
        let st2 := deleteDiceRollsWhere st1 (fun d => d.sessionId == sid)
        let st3 := { st2 with
          characters := st2.characters.map (fun c =>
            if c.sessionId == some sid then { c with sessionId := none } else c) }
        match deleteSessionsWhere st3 (fun s => s.id == sid) with
        | .error _ => (500, st3)
        | .ok st4 => (200, st4)

/-- `sessionController.removeParticipant`: GM, session-admin, or the
participant themselves. -/
def scRemoveParticipant (st : Store) (uid : Nat) (idParam pidParam : Option Nat) :
    Nat × Store :=
  match idParam, pidParam with
  | some sid, some pid =>
    (match findSession st sid with
     | none => (404, st)
     | some session =>
       match findParticipant st pid with
       | none => (404, st)
       | some participant =>
         if participant.sessionId != sid then (404, st)
         else
           let isGM := session.gmId == uid
           let participantData := (includedParticipants st sid).find? (fun p => p.userId == uid)
           let isAdmin := participantData.map (fun p => p.role) == some "admin"
           let isSelf := participant.userId == uid
           if !isGM && !isAdmin && !isSelf then (403, st)
           else (200, deleteParticipantsWhere st (fun p => p.id == pid)))
  | _, _ => (400, st)

/-! ## userController (src/unnamed/part_002, first section)

The stored password hash plays no role in any authorization decision and is
omitted from the `User` record; the `password` request field only feeds the
hash. -/

/-- Body of `PUT /users/:id`. -/
structure UserUpdateReq where
  username : Option String
  email : Option String
  password : Option String

/-- `userController.getUserById`: no permission check appears in the source —
any principal reaching the controller gets the record. -/
def userGetUserById (st : Store) (_principal : Nat) (idParam : Option Nat) :
    Nat × Option User :=
  match idParam with
  | none => (400, none)
  | some uid =>
    match findUser st uid with
    | none => (404, none)
    | some u => (200, some u)

/-- `userController.updateUser`: self or system-admin (an "admin" participant
row in any session); the unique constraints on `username`/`email` make a
colliding update throw (500). -/
def userUpdateUser (st : Store) (actorId : Nat) (idParam : Option Nat)
    (req : UserUpdateReq) : Nat × Store :=
  match idParam with
  | none => (400, st)
  | some targetId =>
    match findUser st targetId with
    | none => (404, st)
    | some target =>
      if actorId != targetId && (findAnyAdminRow st actorId).isNone then (403, st)
      else
        let updated := { target with
          username := if truthyStr req.username then req.username.getD target.username
                      else target.username,
          email := if truthyStr req.email then req.email.getD target.email else target.email }
        if st.users.any (fun v =>
            v.id != targetId && (v.username == updated.username || v.email == updated.email)) then
          (500, st)
        else
          (200, { st with users := st.users.map (fun u => if u.id == targetId then updated else u) })

/-- `userController.deleteUser`: self or system-admin; removes the target's
participations, dice rolls and characters, then the sessions they GM, then
the user row.  The statements run in sequence without a transaction, so a
RESTRICT failure surfaces as 500 with the earlier deletions kept. -/
def userDeleteUser (st : Store) (actorId : Nat) (idParam : Option Nat) : Nat × Store :=
  match idParam with
  | none => (400, st)
  | some targetId =>
    match findUser st targetId with
    | none => (404, st)
    | some _ =>
      if actorId != targetId && (findAnyAdminRow st actorId).isNone then (403, st)
      else
        let st1 := deleteParticipantsWhere st (fun p => p.userId == targetId)
        let st2 := deleteDiceRollsWhere st1 (fun d => d.userId == targetId)
        let st3 := deleteCharactersWhere st2 (fun c => c.userId == targetId)
        match deleteSessionsWhere st3 (fun s => s.gmId == targetId) with
        | .error _ => (500, st3)
        | .ok st4 =>
          match deleteUserRow st4 targetId with
          | .error _ => (500, st4)
          | .ok st5 => (200, st5)

/-! ## characterController (src/unnamed/part_002, second section)

The `inventory` and `stats` JSON blobs take part in no check and are left
out of the `Character` record. -/

/-- Body of `PUT /characters/:id`; outer `none` is an absent key. -/
structure CharacterUpdateReq where
  name : Option String
  race : Option String
  cls : Option String
  level : Option Nat
  background : Option (Option String)
  isAlive : Option Bool
  sessionId : Option (Option Nat)

/-- Field application of `characterController.updateCharacter`'s
`updateData`; `sessionId` uses `sessionId || null`, so a falsy value stores
NULL. -/
def applyCharacterUpdate (c : Character) (req : CharacterUpdateReq) : Character :=
  { c with
    name := if truthyStr req.name then req.name.getD c.name else c.name,
    race := if truthyStr req.race then req.race.getD c.race else c.race,
    cls := if truthyStr req.cls then req.cls.getD c.cls else c.cls,
    level :=
      match req.level with
      | none => c.level
      | some l => l,
    background :=
      match req.background with
      | none => c.background
      | some v => v,
    isAlive :=
      match req.isAlive with
      | none => c.isAlive
      | some b => b,
    sessionId :=
      match req.sessionId with
      | none => c.sessionId
      | some none => none
      | some (some sid) => if sid == 0 then none else some sid }

/-- `characterController.updateCharacter`: gate `isOwner OR isGM OR
isSessionAdmin`, then the stricter identity-field gate: a caller who is
neither owner nor session-admin is rejected when `name`, `race` or `class`
is supplied (truthily). -/
def chUpdateCharacter (st : Store) (uid : Nat) (idParam : Option Nat)
    (req : CharacterUpdateReq) : Nat × Store :=
  match idParam with
  | none => (400, st)
  | some cid =>
    match findCharacter st cid with
    | none => (404, st)
    | some character =>
      let sessionOpt :=
        match character.sessionId with
        | none => none
        | some sid => findSession st sid
      let isOwner := character.userId == uid
      let isGM :=
        match sessionOpt with
        | some s => s.gmId == uid
        | none => false
      let isAdmin :=
        match sessionOpt with
        | some s => (findSessionAdminRow st s.id uid).isSome
        | none => false
      if !isOwner && !isGM && !isAdmin then (403, st)
      else if !isOwner && !isAdmin &&
          (truthyStr req.name || truthyStr req.race || truthyStr req.cls) then (403, st)
      else
        let updated := applyCharacterUpdate character req
        if (match updated.sessionId with
            | none => true
            | some sid => sessionExists st sid) then
          (200, { st with
            characters := st.characters.map (fun c =>
              if c.id == cid then applyCharacterUpdate c req else c) })
        else (500, st)

/-- `characterController.deleteCharacter`: owner or system-admin; deletes the
participant rows and dice rolls that reference the character, then the
character. -/
def chDeleteCharacter (st : Store) (uid : Nat) (idParam : Option Nat) : Nat × Store :=
  match idParam with
  | none => (400, st)
  | some cid =>
    match findCharacter st cid with
    | none => (404, st)
    | some character =>
      let isOwner := character.userId == uid
      let isAdmin := (findAnyAdminRow st uid).isSome
      if !isOwner && !isAdmin then (403, st)
      else
        let st1 := deleteParticipantsWhere st (fun p => p.characterId == some cid)
        let st2 := deleteDiceRollsWhere st1 (fun d => d.characterId == some cid)
        (200, deleteCharactersWhere st2 (fun c => c.id == cid))

/-- Body of `PUT /characters/:id/assign-session`; outer `none` is an absent
key (400), inner `none` is `null`.  The `parseInt` of a string body value is
absorbed into the numeric representation. -/
structure AssignSessionBody where
  sessionId : Option (Option Nat)

/-- `characterController.associateWithSession`: the character must belong to
the caller; when a session is given, the caller must be its GM or a
participant; the character is (dis)associated and a participant row is
created (role "joueur") or its `characterId` updated. -/
def chAssociateWithSession (st : Store) (uid : Nat) (idParam : Option Nat)
    (body : AssignSessionBody) : Nat × Store :=
  match idParam with
  | none => (400, st)
  | some cid =>
    match body.sessionId with
    | none => (400, st)
    | some v =>
      let sessionIdNum : Option Nat :=
        match v with
        | some n => if n == 0 then none else some n
        | none => none
      match findCharacterOwned st cid uid with
      | none => (404, st)
      | some _ =>
        match sessionIdNum with
        | some sid =>
          (match findSession st sid with
           | none => (404, st)
           | some session =>
             let isParticipant := (includedParticipants st sid).any (fun p => p.userId == uid)
             if !isParticipant && session.gmId != uid then (403, st)
             else
               let st1 := { st with
                 characters := st.characters.map (fun c =>
                   if c.id == cid then { c with sessionId := some sid } else c) }
               match findParticipantRow st1 sid uid with
               | some existing =>
                 (200, { st1 with
                   participants := st1.participants.map (fun p =>
                     if p.id == existing.id then { p with characterId := some cid } else p) })
               | none => (200, insertParticipant st1 sid uid (some cid) "joueur"))
        | none =>
          (200, { st with
            characters := st.characters.map (fun c =>
              if c.id == cid then { c with sessionId := none } else c) })

/-! ## sessionParticipantsController (src/unnamed/part_002, third section) -/

/-- Body of `POST /session-participants`. -/
structure SpcAddBody where
  sessionId : Option Nat
  userId : Option Nat
  characterId : Option Nat
  role : Option String

/-- `sessionParticipantsController.addParticipant`: permission `isGM OR
isSelf OR isAdmin`; the requested role is stored verbatim — this entry point
has no self-enrollment downgrade. -/
def spcAddParticipant (st : Store) (actorId : Nat) (body : SpcAddBody) : Nat × Store :=
  if !(truthyNat body.sessionId && truthyNat body.userId && truthyStr body.role) then (400, st)
  else
    let sid := body.sessionId.getD 0
    let targetUserId := body.userId.getD 0
    let role := body.role.getD ""
    match findSession st sid with
    | none => (404, st)
    | some session =>
      let isGM := session.gmId == actorId
      let isSelf := targetUserId == actorId
      let isAdmin := (findSessionAdminRow st sid actorId).isSome
      if !isGM && !isSelf && !isAdmin then (403, st)
      else if (findUser st targetUserId).isNone then (404, st)
      else if truthyNat body.characterId &&
          (findCharacterOwned st (body.characterId.getD 0) targetUserId).isNone then (404, st)
      else
        match findParticipantRow st sid targetUserId with
        | some _ => (400, st)
        | none =>
          if !participantFKOk st sid targetUserId body.characterId then (500, st)
          else (201, insertParticipant st sid targetUserId body.characterId role)

/-- Body of `PUT /session-participants/:id`; `characterId`'s outer `none` is
an absent key, inner `none` is `null`. -/
structure SpcUpdateBody where
  role : Option String
  characterId : Option (Option Nat)

/-- `sessionParticipantsController.updateParticipant`: permission `isGM OR
isSelf OR isAdmin`, then the role and/or character association is updated as
requested. -/
def spcUpdateParticipant (st : Store) (actorId : Nat) (idParam : Option Nat)
    (body : SpcUpdateBody) : Nat × Store :=
  match idParam with
  | none => (400, st)
  | some pid =>
    if body.role.isNone && body.characterId.isNone then (400, st)
    else
      match findParticipant st pid with
      | none => (404, st)
      | some participant =>
        match findSession st participant.sessionId with
        | none => (500, st)
        | some session =>
          let isGM := session.gmId == actorId
          let isSelf := participant.userId == actorId
          let participantData :=
            (includedParticipants st participant.sessionId).find? (fun p => p.userId == actorId)
          let isAdmin := participantData.map (fun p => p.role) == some "admin"
          if !isGM && !isSelf && !isAdmin then (403, st)
          else if (match body.characterId with
                   | some (some c) => (findCharacterOwned st c participant.userId).isNone
                   | _ => false) then (404, st)
          else
            (200, { st with
              participants := st.participants.map (fun p =>
                if p.id == pid then
                  { p with
                    role :=
                      match body.role with
                      | none => p.role
                      | some r => r,
                    characterId :=
                      match body.characterId with
                      | none => p.characterId
                      | some v => v }
                else p) })

/-! ## diceRollController (src/unnamed/part_000) -/

/-- Body of `POST /dice-rolls`. -/
structure RollReq where
  expression : Option String
  sessionId : Option Nat
  characterId : Option Nat

/-- `diceRollController.rollDice`: required-field and regex validation, the
session must exist, the caller must be its GM or a participant, a supplied
`characterId` must name a character owned by the caller; then
`calculateDiceRoll` runs (throwing on a non-positive count or sides, which
the catch-all maps to 500) and the roll is recorded. -/
def rollDice (st : Store) (uid : Nat) (req : RollReq) (rng : Nat → Nat) : Nat × Store :=
  if !(truthyStr req.expression && truthyNat req.sessionId) then (400, st)
  else
    let expression := req.expression.getD ""
    let sid := req.sessionId.getD 0
    if (diceExprParse expression).isNone then (400, st)
    else
      match findSession st sid with
      | none => (404, st)
      | some session =>
        let isGM := session.gmId == uid
        let isParticipant := (findParticipantRow st sid uid).isSome
        if !isGM && !isParticipant then (403, st)
        else if truthyNat req.characterId &&
            (findCharacterOwned st (req.characterId.getD 0) uid).isNone then (404, st)
        else
          match calculateDiceRoll rng expression with
          | .error _ => (500, st)
          | .ok outcome =>
            if userExists st uid && sessionExists st sid &&
                (match req.characterId with
                 | none => true
                 | some c => characterExists st c) then
              (201, { st with
                diceRolls := st.diceRolls ++
                  [{ id := st.nextDiceRollId, rollExpression := expression,
                     result := outcome.result, rolls := outcome.rolls,
                     modifier := outcome.modifier, userId := uid, sessionId := sid,
                     characterId := req.characterId }],
                nextDiceRollId := st.nextDiceRollId + 1 })
            else (500, st)

/-! ## Concrete stores used by witnesses and counterexamples -/

/-- Two users: user 2 ("bob") and user 10, the GM of the demo session. -/
def demoUsers : List User :=
  [{ id := 2, username := "bob", email := "bob@example.com" },
   { id := 10, username := "gm", email := "gm@example.com" }]

/-- A session whose game-master is user 10. -/
def demoSession : Session :=
  { id := 1, title := "Dragon Hunt", description := none, scheduledAt := none,
    status := "planifiée", gmId := 10 }

/-- Store with the demo session and no participants. -/
def storeNoParts : Store :=
  { users := demoUsers, sessions := [demoSession], participants := [],
    characters := [], diceRolls := [],
    nextSessionId := 2, nextParticipantId := 6, nextDiceRollId := 1 }

/-- Store where user 2 already participates in session 1 with role "joueur". -/
def storeSelfJoueur : Store :=
  { storeNoParts with
    participants := [{ id := 5, sessionId := 1, userId := 2, characterId := none,
                       role := "joueur" }] }

/-- A character owned by user 2, attached to session 1 (whose GM is user 10). -/
def demoCharacter : Character :=
  { id := 1, name := "Ari", race := "elfe", cls := "barde", level := 3,
    background := none, isAlive := true, userId := 2, sessionId := some 1 }

/-- `storeSelfJoueur` plus `demoCharacter`. -/
def storeWithCharacter : Store :=
  { storeSelfJoueur with characters := [demoCharacter] }

/-- A `PUT /characters/:id` body supplying no field at all. -/
def emptyCharacterUpdate : CharacterUpdateReq :=
  { name := none, race := none, cls := none, level := none,
    background := none, isAlive := none, sessionId := none }

/-! ## Spec-side predicates -/

/-- No two `SessionParticipants` rows share a `(sessionId, userId)` pair. -/
def UniquePairs (st : Store) : Prop :=
  st.participants.Pairwise (fun p q => p.sessionId ≠ q.sessionId ∨ p.userId ≠ q.userId)

/-- A participant row with role "admin" exists for `(sid, uid)`: the spec's
`isSessionAdmin` flag. -/
def IsSessionAdmin (st : Store) (sid uid : Nat) : Prop :=
  ∃ p ∈ st.participants, p.sessionId = sid ∧ p.userId = uid ∧ p.role = "admin"

/-- The id-generation invariant of the auto-increment `Session` primary key:
every session id in use — including ids referenced by participant rows —
stays below the next id the sequence will hand out. -/
def IdsBounded (st : Store) : Prop :=
  (∀ s ∈ st.sessions, s.id < st.nextSessionId) ∧
  (∀ p ∈ st.participants, p.sessionId < st.nextSessionId)

/-- Well-formedness carried through every operation: pair uniqueness plus
the auto-increment freshness that makes a newly created session's id
unused. -/
def WF (st : Store) : Prop := UniquePairs st ∧ IdsBounded st

/-- One API call, with its authenticated caller and request data. -/
inductive Op where
  | createSession (uid : Nat) (req : SessionCreateReq)
  | scAddP (uid : Nat) (idParam : Option Nat) (body : AddParticipantBody)
  | spcAddP (uid : Nat) (body : SpcAddBody)
  | assignSession (uid : Nat) (idParam : Option Nat) (body : AssignSessionBody)
  | spcUpdateP (uid : Nat) (idParam : Option Nat) (body : SpcUpdateBody)
  | scRemoveP (uid : Nat) (idParam pidParam : Option Nat)
  | updSession (uid : Nat) (idParam : Option Nat) (req : SessionUpdateReq)
  | delSession (uid : Nat) (idParam : Option Nat)
  | updUser (uid : Nat) (idParam : Option Nat) (req : UserUpdateReq)
  | delUser (uid : Nat) (idParam : Option Nat)
  | updCharacter (uid : Nat) (idParam : Option Nat) (req : CharacterUpdateReq)
  | delCharacter (uid : Nat) (idParam : Option Nat)
  | roll (uid : Nat) (req : RollReq) (rng : Nat → Nat)

/-- The store after one call; the HTTP status is discarded. -/
def applyOp (st : Store) : Op → Store
  | .createSession uid req => (scCreateSession st uid req).2
  | .scAddP uid idp body => (scAddParticipant st uid idp body).2
  | .spcAddP uid body => (spcAddParticipant st uid body).2
  | .assignSession uid idp body => (chAssociateWithSession st uid idp body).2
  | .spcUpdateP uid idp body => (spcUpdateParticipant st uid idp body).2
  | .scRemoveP uid idp pidp => (scRemoveParticipant st uid idp pidp).2
  | .updSession uid idp req => (scUpdateSession st uid idp req).2
  | .delSession uid idp => (scDeleteSession st uid idp).2
  | .updUser uid idp req => (userUpdateUser st uid idp req).2
  | .delUser uid idp => (userDeleteUser st uid idp).2
  | .updCharacter uid idp req => (chUpdateCharacter st uid idp req).2
  | .delCharacter uid idp => (chDeleteCharacter st uid idp).2
  | .roll uid req rng => (rollDice st uid req rng).2

/-- The store after a sequence of sequentially executed calls. -/
def applyOps (st : Store) (ops : List Op) : Store :=
  ops.foldl applyOp st

/-! ## Sanity checks of the embedding on concrete inputs -/

example : diceExprParse "2d6+3" = some (2, 6, 3) := by decide
example : diceExprParse "1d20-2" = some (1, 20, -2) := by decide
example : diceExprParse "3d8" = some (3, 8, 0) := by decide
example : diceExprParse "2d6+" = none := by decide
example : diceExprParse "d6" = none := by decide
example : diceExprParse "0d6" = some (0, 6, 0) := by decide
example : findDiceMatch "x2d6+3y".toList = some (2, 6, 3) := by decide
example : calculateDiceRoll (fun _ => 7) "2d6+3" =
    .ok { result := 7, rolls := [2, 2], modifier := 3 } := rfl

example :
    scAddParticipant storeNoParts 2 (some 1)
      { userId := some 2, characterId := none, role := some "admin" } =
    (201, { storeNoParts with
            participants := [{ id := 6, sessionId := 1, userId := 2,
                               characterId := none, role := "joueur" }],
            nextParticipantId := 7 }) := by decide

example :
    scAddParticipant storeNoParts 7 (some 1)
      { userId := some 2, characterId := none, role := some "admin" } =
    (403, storeNoParts) := by decide

example :
    scCreateSession storeNoParts 2
      { title := some "New", description := none, scheduledAt := none, status := none } =
    (201, { storeNoParts with
            sessions := storeNoParts.sessions ++
              [{ id := 2, title := "New", description := none, scheduledAt := none,
                 status := "planifiée", gmId := 2 }],
            participants := [{ id := 6, sessionId := 2, userId := 2,
                               characterId := none, role := "mj" }],
            nextSessionId := 3, nextParticipantId := 7 }) := by decide

/-! ## Helper lemmas about the lookup functions -/

theorem findSession_id {st : Store} {sid : Nat} {s : Session}
    (h : findSession st sid = some s) : s.id = sid := by
  have := List.find?_some h
  simpa using this

theorem findSession_mem {st : Store} {sid : Nat} {s : Session}
    (h : findSession st sid = some s) : s ∈ st.sessions :=
  List.mem_of_find?_eq_some h

theorem sessionExists_of_findSession {st : Store} {sid : Nat} {s : Session}
    (h : findSession st sid = some s) : sessionExists st sid = true := by
  have hm := findSession_mem h
  have hid := findSession_id h
  simp only [sessionExists, List.any_eq_true]
  exact ⟨s, hm, by simp [hid]⟩

theorem userExists_of_findUser {st : Store} {uid : Nat} {u : User}
    (h : findUser st uid = some u) : userExists st uid = true := by
  have hm := List.mem_of_find?_eq_some h
  have hid : u.id = uid := by simpa using List.find?_some h
  simp only [userExists, List.any_eq_true]
  exact ⟨u, hm, by simp [hid]⟩

theorem findCharacterOwned_spec {st : Store} {cid uid : Nat} {c : Character}
    (h : findCharacterOwned st cid uid = some c) : c.id = cid ∧ c.userId = uid := by
  have := List.find?_some h
  simpa using this

theorem characterExists_of_owned {st : Store} {cid uid : Nat} {c : Character}
    (h : findCharacterOwned st cid uid = some c) : characterExists st cid = true := by
  have hm := List.mem_of_find?_eq_some h
  have hid := (findCharacterOwned_spec h).1
  simp only [characterExists, List.any_eq_true]
  exact ⟨c, hm, by simp [hid]⟩

theorem diceExprParse_not_empty {s : String} {r : Nat × Nat × Int}
    (h : diceExprParse s = some r) : s.isEmpty = false := by
  cases he : s.isEmpty with
  | false => rfl
  | true =>
    exfalso
    have hs : s = "" := (String.isEmpty_iff s).mp (by simp [he])
    subst hs
    have h0 : diceExprParse "" = none := by decide
    rw [h0] at h
    cases h

theorem anchored_findDiceMatch {s : String} {r : Nat × Nat × Int}
    (h : diceExprParse s = some r) : findDiceMatch s.toList = some r := by
  unfold diceExprParse at h
  rcases ht : tryMatchAt s.toList with _ | ⟨r', rest⟩
  · rw [ht] at h; cases h
  · rw [ht] at h
    rcases rest with _ | ⟨c, cs⟩
    · simp only [Option.some.injEq] at h
      subst h
      cases hl : s.toList with
      | nil =>
        rw [hl] at ht
        have : tryMatchAt ([] : List Char) = none := by decide
        rw [this] at ht
        cases ht
      | cons a as =>
        rw [hl] at ht
        simp [findDiceMatch, ht]
    · cases h

/-! ## Claim theorems -/

/-- C1: the claim says every add-participant entry point stores role
"joueur" on a non-GM self-enrollment.  Evaluating
`sessionParticipantsController.addParticipant` at the failing input: user 2
(not the GM of session 1) adds themselves requesting role "admin", and the
stored row's role is "admin", not "joueur". -/
theorem spcAddParticipant_self_enrollment_stores_admin :
    demoSession.gmId ≠ 2 ∧
    spcAddParticipant storeNoParts 2
      { sessionId := some 1, userId := some 2, characterId := none, role := some "admin" } =
    (201, { storeNoParts with
            participants := [{ id := 6, sessionId := 1, userId := 2,
                               characterId := none, role := "admin" }],
            nextParticipantId := 7 }) := by decide

/-- C2: the claim says a participant B who is neither GM nor session-admin
is denied (403) when setting their own role to "admin".  Evaluating
`sessionParticipantsController.updateParticipant` at the failing input:
user 2 (role "joueur" in session 1, GM is user 10) updates their own row to
role "admin" and the call succeeds with the role stored. -/
theorem spcUpdateParticipant_self_role_escalation :
    demoSession.gmId ≠ 2 ∧
    findSessionAdminRow storeSelfJoueur 1 2 = none ∧
    spcUpdateParticipant storeSelfJoueur 2 (some 5)
      { role := some "admin", characterId := none } =
    (200, { storeSelfJoueur with
            participants := [{ id := 5, sessionId := 1, userId := 2,
                               characterId := none, role := "admin" }] }) := by decide

/-- C3 counterexample: user 2 is not user 10 and holds no "admin"
participant row anywhere, yet `userController.getUserById` returns user 10's
record with 200 — the view operation has no `isSelf OR isSystemAdmin`
guard. -/
theorem getUserById_open_to_any_principal :
    (2 : Nat) ≠ 10 ∧
    findAnyAdminRow storeNoParts 2 = none ∧
    userGetUserById storeNoParts 2 (some 10) =
      (200, some { id := 10, username := "gm", email := "gm@example.com" }) := by decide

/-- C9 counterexample: session 1 exists, but an unauthenticated request to
`GET /sessions/:id` is answered 401 by the `isAuthenticated` middleware that
`Router/sessionRoutes.ts` installs on the route — not the claimed
200-for-everyone. -/
theorem routeGetSessionById_unauthenticated_401 :
    findSession storeNoParts 1 = some demoSession ∧
    routeGetSessionById storeNoParts none (some 1) = (401, none) := by decide

/-- C8 counterexample: "0d6" matches `^\d+d\d+([+-]\d+)?$` with a dice count
of zero, so the claim requires a 400; the code's regex gate passes it and
`calculateDiceRoll` throws on the positivity check, which the catch-all
converts to 500 (the GM of session 1 rolls, all other checks pass). -/
theorem rollDice_zero_count_gives_500 :
    diceExprParse "0d6" = some (0, 6, 0) ∧
    rollDice storeNoParts 10
      { expression := some "0d6", sessionId := some 1, characterId := none }
      (fun _ => 0) = (500, storeNoParts) := by decide

/-- C9 amended: the view-single-session controller consults no principal, so
every authenticated principal — participant or total stranger — receives the
session with 200 and never a 403; but the route registered in
`Router/sessionRoutes.ts` runs `isAuthenticated` first, so an
unauthenticated request is rejected 401 before the controller. -/
theorem view_session_open_to_authenticated
    (st : Store) (sid : Nat) (s : Session)
    (hs : findSession st sid = some s) :
    (∀ p : Option Nat, scGetSessionById st p (some sid) = (200, some s)) ∧
    (∀ uid : Nat, routeGetSessionById st (some uid) (some sid) = (200, some s)) ∧
    routeGetSessionById st none (some sid) = (401, none) := by
  refine ⟨fun p => ?_, fun uid => ?_, rfl⟩ <;>
    simp [scGetSessionById, routeGetSessionById, hs]

/-- Witness for C9's amended theorem at the demo store. -/
theorem view_session_open_witness :
    findSession storeNoParts 1 = some demoSession ∧
    routeGetSessionById storeNoParts (some 2) (some 1) = (200, some demoSession) :=
  ⟨by decide,
   (view_session_open_to_authenticated storeNoParts 1 demoSession (by decide)).2.1 2⟩

/-- C3 amended: update-user and delete-user deny any principal who is
neither the target (`isSelf`) nor a system admin (an "admin" participant row
in some session) with 403 and an unchanged store; view-user has no such
guard and answers 200 to any principal. -/
theorem user_ops_guarded
    (st : Store) (actor targetId : Nat) (u : User) (req : UserUpdateReq)
    (hu : findUser st targetId = some u)
    (hself : actor ≠ targetId)
    (hadmin : findAnyAdminRow st actor = none) :
    (userGetUserById st actor (some targetId)).1 = 200 ∧
    userUpdateUser st actor (some targetId) req = (403, st) ∧
    userDeleteUser st actor (some targetId) = (403, st) := by
  refine ⟨?_, ?_, ?_⟩ <;>
    simp [userGetUserById, userUpdateUser, userDeleteUser, hu, hadmin, hself]

/-- Witness for C3's amended theorem at the demo store. -/
theorem user_ops_guarded_witness :
    findUser storeNoParts 10 = some { id := 10, username := "gm", email := "gm@example.com" } ∧
    (2 : Nat) ≠ 10 ∧
    findAnyAdminRow storeNoParts 2 = none ∧
    userDeleteUser storeNoParts 2 (some 10) = (403, storeNoParts) :=
  ⟨by decide, by decide, by decide,
   (user_ops_guarded storeNoParts 2 10
      { id := 10, username := "gm", email := "gm@example.com" }
      { username := none, email := none, password := none }
      (by decide) (by decide) (by decide)).2.2⟩

/-- C7: a principal who is the GM of the character's attached session but
neither its owner nor a session-admin is rejected 403 whenever `name`,
`race` or `class` is supplied, and succeeds when none of them is supplied
(any stored `sessionId` must satisfy the FK, e.g. stay absent or reference
an existing session). -/
theorem character_identity_lock
    (st : Store) (uid cid sid : Nat) (c : Character) (s : Session)
    (req : CharacterUpdateReq)
    (hc : findCharacter st cid = some c)
    (hcs : c.sessionId = some sid)
    (hs : findSession st sid = some s)
    (hgm : s.gmId = uid)
    (hown : c.userId ≠ uid)
    (hadm : findSessionAdminRow st sid uid = none) :
    ((truthyStr req.name || truthyStr req.race || truthyStr req.cls) = true →
      chUpdateCharacter st uid (some cid) req = (403, st)) ∧
    (req.name = none → req.race = none → req.cls = none →
     (∀ v, req.sessionId = some (some v) → v ≠ 0 → sessionExists st v = true) →
      (chUpdateCharacter st uid (some cid) req).1 = 200) := by
  have hid := findSession_id hs
  subst hid
  constructor
  · intro ht
    simp [chUpdateCharacter, hc, hcs, hs, hown, hgm, hadm, ht]
  · intro h1 h2 h3 hfk
    rcases hreq : req.sessionId with _ | ⟨_ | v⟩
    · simp [chUpdateCharacter, hc, hcs, hs, hown, hgm, hadm, h1, h2, h3, hreq,
        applyCharacterUpdate, truthyStr, sessionExists_of_findSession hs]
    · simp [chUpdateCharacter, hc, hcs, hs, hown, hgm, hadm, h1, h2, h3, hreq,
        applyCharacterUpdate, truthyStr]
    · by_cases hv : v = 0
      · simp [chUpdateCharacter, hc, hcs, hs, hown, hgm, hadm, h1, h2, h3, hreq,
          applyCharacterUpdate, truthyStr, hv]
      · simp [chUpdateCharacter, hc, hcs, hs, hown, hgm, hadm, h1, h2, h3, hreq,
          applyCharacterUpdate, truthyStr, hv, hfk v hreq hv]

/-- Witness for C7 at the demo store: GM user 10 is rejected when renaming
user 2's character, and succeeds flipping only `isAlive`. -/
theorem character_identity_lock_witness :
    findCharacter storeWithCharacter 1 = some demoCharacter ∧
    chUpdateCharacter storeWithCharacter 10 (some 1)
      { emptyCharacterUpdate with name := some "X" } = (403, storeWithCharacter) ∧
    (chUpdateCharacter storeWithCharacter 10 (some 1)
      { emptyCharacterUpdate with isAlive := some false }).1 = 200 :=
  ⟨by decide,
   (character_identity_lock storeWithCharacter 10 1 1 demoCharacter demoSession
      { emptyCharacterUpdate with name := some "X" }
      (by decide) (by decide) (by decide) (by decide) (by decide) (by decide)).1
     (by decide),
   (character_identity_lock storeWithCharacter 10 1 1 demoCharacter demoSession
      { emptyCharacterUpdate with isAlive := some false }
      (by decide) (by decide) (by decide) (by decide) (by decide) (by decide)).2
     rfl rfl rfl (fun v hv _ => by simp [emptyCharacterUpdate] at hv)⟩

/-- C10: with a (truthy) `characterId` in the request, reaching the
character gate means: if no character with that id is owned by the caller
the call answers 404 with the store unchanged; and whenever the call
answers 201 the caller does own such a character and the single recorded
roll carries that `characterId` and the caller's `userId`. -/
theorem rollDice_character_ownership
    (st : Store) (uid sid cnum : Nat) (s : Session) (expr : String)
    (pr : Nat × Nat × Int) (rng : Nat → Nat)
    (hsid0 : sid ≠ 0) (hc0 : cnum ≠ 0)
    (hex : diceExprParse expr = some pr)
    (hs : findSession st sid = some s)
    (hmem : s.gmId = uid ∨ (findParticipantRow st sid uid).isSome = true) :
    (findCharacterOwned st cnum uid = none →
      rollDice st uid
        { expression := some expr, sessionId := some sid, characterId := some cnum } rng
        = (404, st)) ∧
    (∀ res : Store,
      rollDice st uid
        { expression := some expr, sessionId := some sid, characterId := some cnum } rng
        = (201, res) →
      ∃ ch : Character, ∃ d : DiceRoll,
        findCharacterOwned st cnum uid = some ch ∧ ch.id = cnum ∧ ch.userId = uid ∧
        res.diceRolls = st.diceRolls ++ [d] ∧
        d.characterId = some cnum ∧ d.userId = uid) := by
  have hemp := diceExprParse_not_empty hex
  have hgateP : ¬(¬s.gmId = uid ∧ findParticipantRow st sid uid = none) := by
    rcases hmem with h | h
    · exact fun hc => hc.1 h
    · intro hc
      rw [hc.2] at h
      cases h
  constructor
  · intro hnone
    simp [rollDice, truthyStr, truthyNat, hemp, hsid0, hex, hs, hgateP, hnone, hc0]
  · intro res h201
    rcases hco : findCharacterOwned st cnum uid with _ | ch
    · have h404 : rollDice st uid
          { expression := some expr, sessionId := some sid, characterId := some cnum } rng
          = (404, st) := by
        simp [rollDice, truthyStr, truthyNat, hemp, hsid0, hex, hs, hgateP, hco, hc0]
      rw [h404] at h201
      simp at h201
    · have hspec := findCharacterOwned_spec hco
      have hfm2 : findDiceMatch expr.data = some pr := anchored_findDiceMatch hex
      rcases pr with ⟨n, m, k⟩
      by_cases hnm : n = 0 ∨ m = 0
      · have h500 : rollDice st uid
            { expression := some expr, sessionId := some sid, characterId := some cnum } rng
            = (500, st) := by
          simp [rollDice, truthyStr, truthyNat, hemp, hsid0, hex, hs, hgateP, hco, hc0,
            calculateDiceRoll, hfm2, hnm]
        rw [h500] at h201
        simp at h201
      · by_cases hue : userExists st uid = true
        · have hse := sessionExists_of_findSession hs
          have hce := characterExists_of_owned hco
          have h201ok : rollDice st uid
              { expression := some expr, sessionId := some sid, characterId := some cnum } rng
              = (201, { st with
                  diceRolls := st.diceRolls ++
                    [{ id := st.nextDiceRollId, rollExpression := expr,
                       result := (((rollsFrom rng m n).foldl (· + ·) 0 : Nat) : Int) + k,
                       rolls := rollsFrom rng m n, modifier := k,
                       userId := uid, sessionId := sid, characterId := some cnum }],
                  nextDiceRollId := st.nextDiceRollId + 1 }) := by
            simp [rollDice, truthyStr, truthyNat, hemp, hsid0, hex, hs, hgateP, hco, hc0,
              calculateDiceRoll, hfm2, hnm, hue, hse, hce]
          rw [h201ok] at h201
          simp only [Prod.mk.injEq, true_and] at h201
          subst h201
          exact ⟨ch, _, rfl, hspec.1, hspec.2, rfl, rfl, rfl⟩
        · have h500 : rollDice st uid
              { expression := some expr, sessionId := some sid, characterId := some cnum } rng
              = (500, st) := by
            simp [rollDice, truthyStr, truthyNat, hemp, hsid0, hex, hs, hgateP, hco, hc0,
              calculateDiceRoll, hfm2, hnm, hue]
          rw [h500] at h201
          simp at h201

/-- Witness for C10 at the demo store: user 2 rolls in session 1 naming
character id 9, which they do not own, and gets 404 with the store
unchanged. -/
theorem rollDice_character_ownership_witness :
    diceExprParse "2d6+3" = some (2, 6, 3) ∧
    findSession storeWithCharacter 1 = some demoSession ∧
    findCharacterOwned storeWithCharacter 9 2 = none ∧
    rollDice storeWithCharacter 2
      { expression := some "2d6+3", sessionId := some 1, characterId := some 9 }
      (fun _ => 0) = (404, storeWithCharacter) :=
  ⟨by decide, by decide, by decide,
   (rollDice_character_ownership storeWithCharacter 2 1 9 demoSession "2d6+3"
      (2, 6, 3) (fun _ => 0) (by decide) (by decide) (by decide) (by decide)
      (Or.inr (by decide))).1 (by decide)⟩

/-- The in-controller admin flag — role of the first included participant
row of the caller — agrees with "an admin row exists" exactly when no two
rows share a `(sessionId, userId)` pair. -/
theorem find_admin_flag_iff (l : List Participant) (sid uid : Nat)
    (hpw : l.Pairwise (fun p q => p.sessionId ≠ q.sessionId ∨ p.userId ≠ q.userId)) :
    ((l.filter (fun p => p.sessionId == sid)).find? (fun p => p.userId == uid)).map
        (fun p => p.role) = some "admin"
      ↔ ∃ p ∈ l, p.sessionId = sid ∧ p.userId = uid ∧ p.role = "admin" := by
  induction l with
  | nil => simp
  | cons h t ih =>
    rw [List.pairwise_cons] at hpw
    obtain ⟨hhead, htail⟩ := hpw
    by_cases hsid : h.sessionId = sid
    · rw [List.filter_cons_of_pos (by simp [hsid])]
      by_cases huid : h.userId = uid
      · rw [List.find?_cons_of_pos _ (by simp [huid])]
        simp only [Option.map_some', Option.some.injEq]
        constructor
        · intro hrole
          exact ⟨h, List.mem_cons_self h t, hsid, huid, hrole⟩
        · rintro ⟨p, hp, hps, hpu, hpr⟩
          rcases List.mem_cons.mp hp with rfl | hp
          · exact hpr
          · cases hhead p hp with
            | inl hne => exact absurd (hsid.trans hps.symm) hne
            | inr hne => exact absurd (huid.trans hpu.symm) hne
      · rw [List.find?_cons_of_neg _ (by simp [huid])]
        rw [ih htail]
        constructor
        · rintro ⟨p, hp, hrest⟩
          exact ⟨p, List.mem_cons_of_mem h hp, hrest⟩
        · rintro ⟨p, hp, hps, hpu, hpr⟩
          rcases List.mem_cons.mp hp with rfl | hp
          · exact absurd hpu huid
          · exact ⟨p, hp, hps, hpu, hpr⟩
    · rw [List.filter_cons_of_neg (by simp [hsid])]
      rw [ih htail]
      constructor
      · rintro ⟨p, hp, hrest⟩
        exact ⟨p, List.mem_cons_of_mem h hp, hrest⟩
      · rintro ⟨p, hp, hps, hpu, hpr⟩
        rcases List.mem_cons.mp hp with rfl | hp
        · exact absurd hps hsid
        · exact ⟨p, hp, hps, hpu, hpr⟩

/-- After filtering out the rows of a session, no remaining row can trip the
RESTRICT guard of that session's delete. -/
theorem any_doomed_filtered_false {α : Type} (f : α → Nat) (l : List α)
    (sessions : List Session) (sid : Nat) :
    ((l.filter (fun x => !(f x == sid))).any
      (fun x => sessions.any (fun s => (s.id == sid) && s.id == f x))) = false := by
  rw [List.any_eq_false]
  intro x hx
  rw [List.mem_filter] at hx
  intro hany
  rw [List.any_eq_true] at hany
  obtain ⟨s, _, hss⟩ := hany
  have h1 : s.id = sid := by
    have := Bool.and_elim_left hss
    simpa using this
  have h2 : s.id = f x := by
    have := Bool.and_elim_right hss
    simpa using this
  have : (f x == sid) = true := by simp [← h2, h1]
  simp [this] at hx

/-- Evaluation of `sessionController.deleteSession` when the caller passes
the GM-or-admin gate: the cleanup statements run, the RESTRICT guard of the
final session delete cannot fire, and the call returns 200. -/
theorem scDeleteSession_allowed (st : Store) (uid sid : Nat) (s : Session)
    (hs : findSession st sid = some s)
    (hcond : s.gmId = uid ∨
      (((includedParticipants st sid).find? (fun p => p.userId == uid)).map
        (fun p => p.role) = some "admin")) :
    (scDeleteSession st uid (some sid)).1 = 200 ∧
    (scDeleteSession st uid (some sid)).2.participants
      = st.participants.filter (fun p => !(p.sessionId == sid)) ∧
    (scDeleteSession st uid (some sid)).2.diceRolls
      = st.diceRolls.filter (fun d => !(d.sessionId == sid)) ∧
    (scDeleteSession st uid (some sid)).2.sessions
      = st.sessions.filter (fun s' => !(s'.id == sid)) ∧
    (∀ c ∈ (scDeleteSession st uid (some sid)).2.characters, c.sessionId ≠ some sid) := by
  have hcondb : (!(s.gmId == uid) &&
      !(Option.map (fun p => p.role)
          (List.find? (fun p => p.userId == uid) (includedParticipants st sid)) ==
        some "admin")) = false := by
    rcases hcond with h | h <;> simp [h]
  have hg1 := any_doomed_filtered_false (fun p : Participant => p.sessionId)
    st.participants st.sessions sid
  have hg2 := any_doomed_filtered_false (fun d : DiceRoll => d.sessionId)
    st.diceRolls st.sessions sid
  simp only [scDeleteSession, hs, deleteParticipantsWhere, deleteDiceRollsWhere,
    deleteSessionsWhere, hg1, hg2, hcondb, Bool.or_self, Bool.false_eq_true, if_false]
  refine ⟨trivial, trivial, trivial, trivial, ?_⟩
  intro c hc
  rw [List.mem_map] at hc
  obtain ⟨c0, hc0, rfl⟩ := hc
  rw [List.mem_map] at hc0
  obtain ⟨c1, _, rfl⟩ := hc0
  by_cases h1 : c1.sessionId = some sid
  · simp [h1]
  · rcases hcc : c1.sessionId with _ | v
    · simp [hcc]
    · have hv : v ≠ sid := fun h => h1 (by rw [hcc, h])
      have hdoomed : (st.sessions.any fun s' => s'.id == sid && s'.id == v) = false := by
        rw [List.any_eq_false]
        intro x _
        intro hx
        rw [Bool.and_eq_true] at hx
        have h2 : x.id = sid := by simpa using hx.1
        have h3 : x.id = v := by simpa using hx.2
        exact hv (h3 ▸ h2)
      simp [hcc, hv, hdoomed]

/-- C4: update-session and delete-session are allowed exactly when the
caller is the GM or holds an "admin" participant row in the session; any
other principal gets 403 with the store unchanged, and an allowed delete
removes the session.  The `(sessionId, userId)` uniqueness invariant makes
the code's first-included-row admin probe agree with row existence. -/
theorem session_update_delete_gm_or_admin
    (st : Store) (uid sid : Nat) (s : Session) (req : SessionUpdateReq)
    (hu : UniquePairs st)
    (hs : findSession st sid = some s) :
    (¬(s.gmId = uid ∨ IsSessionAdmin st sid uid) →
       scUpdateSession st uid (some sid) req = (403, st) ∧
       scDeleteSession st uid (some sid) = (403, st)) ∧
    ((s.gmId = uid ∨ IsSessionAdmin st sid uid) →
       (scUpdateSession st uid (some sid) req).1 = 200 ∧
       (scDeleteSession st uid (some sid)).1 = 200 ∧
       findSession (scDeleteSession st uid (some sid)).2 sid = none) := by
  have hiff := find_admin_flag_iff st.participants sid uid hu
  constructor
  · intro hno
    push_neg at hno
    obtain ⟨hgm, hadm⟩ := hno
    have hflag : ¬(Option.map (fun p => p.role)
        (List.find? (fun p => p.userId == uid) (includedParticipants st sid))
          = some "admin") :=
      fun hx => hadm (hiff.mp hx)
    constructor
    · simp [scUpdateSession, hs, hgm, hflag]
    · simp [scDeleteSession, hs, hgm, hflag]
  · intro hyes
    have hflag : s.gmId = uid ∨ (Option.map (fun p => p.role)
        (List.find? (fun p => p.userId == uid) (includedParticipants st sid))
          = some "admin") := by
      rcases hyes with h | h
      · exact Or.inl h
      · exact Or.inr (hiff.mpr h)
    obtain ⟨h200, _, _, hsess, _⟩ := scDeleteSession_allowed st uid sid s hs hflag
    have hcondb : (!(s.gmId == uid) &&
        !(Option.map (fun p => p.role)
            (List.find? (fun p => p.userId == uid) (includedParticipants st sid)) ==
          some "admin")) = false := by
      rcases hflag with h | h <;> simp [h]
    refine ⟨?_, h200, ?_⟩
    · simp [scUpdateSession, hs, hcondb]
    · simp only [findSession, hsess]
      refine List.find?_eq_none.mpr ?_
      intro x hx
      rw [List.mem_filter] at hx
      simpa using hx.2

/-- Witness for C4 at the demo store: the GM (user 10) may delete session 1;
user 7 (no relation to the session) is denied with the store unchanged. -/
theorem session_update_delete_witness :
    UniquePairs storeSelfJoueur ∧
    findSession storeSelfJoueur 1 = some demoSession ∧
    (scDeleteSession storeSelfJoueur 10 (some 1)).1 = 200 :=
  ⟨by simp [UniquePairs, storeSelfJoueur, storeNoParts], by decide,
   ((session_update_delete_gm_or_admin storeSelfJoueur 10 1 demoSession
      { title := none, description := none, scheduledAt := none, status := none }
      (by simp [UniquePairs, storeSelfJoueur, storeNoParts]) (by decide)).2
     (Or.inl (by decide))).2.1⟩

theorem rollsFrom_length (rng : Nat → Nat) (m n : Nat) :
    (rollsFrom rng m n).length = n := by
  simp [rollsFrom]

theorem rollsFrom_bounds (rng : Nat → Nat) (m n : Nat) (hm : m ≠ 0) :
    ∀ r ∈ rollsFrom rng m n, 1 ≤ r ∧ r ≤ m := by
  intro r hr
  rw [rollsFrom, List.mem_map] at hr
  obtain ⟨i, _, rfl⟩ := hr
  refine ⟨by omega, ?_⟩
  have := Nat.mod_lt (rng i) (Nat.pos_of_ne_zero hm)
  omega

/-- C8 amended: for a roll request that passes the session and membership
checks, an expression rejected by `^\d+d\d+([+-]\d+)?$` is answered 400 with
nothing recorded; an expression accepted by the regex but with a zero dice
count or zero sides is answered 500 (the positivity check throws), again
with nothing recorded; an accepted `NdM(+|-)K` records exactly one roll with
`N` individual rolls, each in `[1, M]`, and `result = sum(rolls) + K`. -/
theorem rollDice_validation_and_bounds
    (st : Store) (uid sid : Nat) (s : Session) (expr : String) (rng : Nat → Nat)
    (hsid0 : sid ≠ 0)
    (hs : findSession st sid = some s)
    (hmem : s.gmId = uid ∨ (findParticipantRow st sid uid).isSome = true)
    (huser : userExists st uid = true) :
    (diceExprParse expr = none →
      rollDice st uid { expression := some expr, sessionId := some sid, characterId := none } rng
        = (400, st)) ∧
    (∀ n m : Nat, ∀ k : Int, diceExprParse expr = some (n, m, k) → (n = 0 ∨ m = 0) →
      rollDice st uid { expression := some expr, sessionId := some sid, characterId := none } rng
        = (500, st)) ∧
    (∀ n m : Nat, ∀ k : Int, diceExprParse expr = some (n, m, k) → n ≠ 0 → m ≠ 0 →
      ∃ d : DiceRoll,
        rollDice st uid { expression := some expr, sessionId := some sid, characterId := none } rng
          = (201, { st with diceRolls := st.diceRolls ++ [d],
                            nextDiceRollId := st.nextDiceRollId + 1 }) ∧
        d.rollExpression = expr ∧
        d.rolls.length = n ∧
        (∀ r ∈ d.rolls, 1 ≤ r ∧ r ≤ m) ∧
        d.modifier = k ∧
        d.result = ((d.rolls.foldl (· + ·) 0 : Nat) : Int) + k) := by
  have hgateP : ¬(¬s.gmId = uid ∧ findParticipantRow st sid uid = none) := by
    rcases hmem with h | h
    · exact fun hc => hc.1 h
    · intro hc
      rw [hc.2] at h
      cases h
  have hse := sessionExists_of_findSession hs
  refine ⟨?_, ?_, ?_⟩
  · intro hnone
    by_cases hemp : expr.isEmpty = true
    · simp [rollDice, truthyStr, hemp]
    · simp [rollDice, truthyStr, truthyNat, hemp, hsid0, hnone]
  · intro n m k hex hnm
    have hemp := diceExprParse_not_empty hex
    have hfm2 : findDiceMatch expr.data = some (n, m, k) := anchored_findDiceMatch hex
    simp [rollDice, truthyStr, truthyNat, hemp, hsid0, hex, hs, hgateP,
      calculateDiceRoll, hfm2, hnm]
  · intro n m k hex hn hm
    have hemp := diceExprParse_not_empty hex
    have hfm2 : findDiceMatch expr.data = some (n, m, k) := anchored_findDiceMatch hex
    have hnm : ¬(n = 0 ∨ m = 0) := by
      rintro (h | h)
      · exact hn h
      · exact hm h
    refine ⟨{ id := st.nextDiceRollId, rollExpression := expr,
              result := (((rollsFrom rng m n).foldl (· + ·) 0 : Nat) : Int) + k,
              rolls := rollsFrom rng m n, modifier := k,
              userId := uid, sessionId := sid, characterId := none },
      ?_, rfl, ?_, ?_, rfl, rfl⟩
    · simp [rollDice, truthyStr, truthyNat, hemp, hsid0, hex, hs, hgateP,
        calculateDiceRoll, hfm2, hnm, huser, hse]
    · exact rollsFrom_length rng m n
    · exact rollsFrom_bounds rng m n hm

/-- Witness for C8's amended theorem: the GM of session 1 rolls "2d6+3" with
a random stream that always yields 1 (each die shows 2), and "x" is rejected
with 400. -/
theorem rollDice_validation_witness :
    findSession storeNoParts 1 = some demoSession ∧
    userExists storeNoParts 10 = true ∧
    rollDice storeNoParts 10
      { expression := some "x", sessionId := some 1, characterId := none }
      (fun _ => 1) = (400, storeNoParts) ∧
    (∃ d : DiceRoll,
      rollDice storeNoParts 10
        { expression := some "2d6+3", sessionId := some 1, characterId := none }
        (fun _ => 1)
        = (201, { storeNoParts with diceRolls := storeNoParts.diceRolls ++ [d],
                                    nextDiceRollId := storeNoParts.nextDiceRollId + 1 }) ∧
      d.rollExpression = "2d6+3" ∧
      d.rolls.length = 2 ∧
      (∀ r ∈ d.rolls, 1 ≤ r ∧ r ≤ 6) ∧
      d.modifier = 3 ∧
      d.result = ((d.rolls.foldl (· + ·) 0 : Nat) : Int) + 3) :=
  ⟨by decide, by decide,
   (rollDice_validation_and_bounds storeNoParts 10 1 demoSession "x" (fun _ => 1)
      (by decide) (by decide) (Or.inl (by decide)) (by decide)).1 (by decide),
   (rollDice_validation_and_bounds storeNoParts 10 1 demoSession "2d6+3" (fun _ => 1)
      (by decide) (by decide) (Or.inl (by decide)) (by decide)).2.2 2 6 3
     (by decide) (by decide) (by decide)⟩

/-- A SET-NULL pass over participant rows leaves no reference to a doomed
character. -/
theorem participant_nullref_no_doomed {l : List Participant} {doomed : Nat → Bool}
    {p : Participant}
    (hp : p ∈ l.map (fun q =>
      match q.characterId with
      | some c => if doomed c then { q with characterId := none } else q
      | none => q))
    {cid : Nat} (hd : doomed cid = true) : p.characterId ≠ some cid := by
  rw [List.mem_map] at hp
  obtain ⟨q, _, rfl⟩ := hp
  rcases hq : q.characterId with _ | c
  · simp [hq]
  · by_cases hdc : doomed c = true
    · simp [hq, hdc]
    · simp only [hq, hdc, Bool.false_eq_true, if_false]
      intro heq
      injection heq with heq
      subst heq
      exact hdc hd

/-- A SET-NULL pass over dice rolls leaves no reference to a doomed
character. -/
theorem diceRoll_nullref_no_doomed {l : List DiceRoll} {doomed : Nat → Bool}
    {d : DiceRoll}
    (hp : d ∈ l.map (fun q =>
      match q.characterId with
      | some c => if doomed c then { q with characterId := none } else q
      | none => q))
    {cid : Nat} (hd : doomed cid = true) : d.characterId ≠ some cid := by
  rw [List.mem_map] at hp
  obtain ⟨q, _, rfl⟩ := hp
  rcases hq : q.characterId with _ | c
  · simp [hq]
  · by_cases hdc : doomed c = true
    · simp [hq, hdc]
    · simp only [hq, hdc, Bool.false_eq_true, if_false]
      intro heq
      injection heq with heq
      subst heq
      exact hdc hd

/-- A SET-NULL pass over characters leaves no reference to a doomed
session. -/
theorem character_nullref_no_doomed {l : List Character} {doomed : Nat → Bool}
    {c : Character}
    (hp : c ∈ l.map (fun q =>
      match q.sessionId with
      | some x => if doomed x then { q with sessionId := none } else q
      | none => q))
    {sid : Nat} (hd : doomed sid = true) : c.sessionId ≠ some sid := by
  rw [List.mem_map] at hp
  obtain ⟨q, _, rfl⟩ := hp
  rcases hq : q.sessionId with _ | x
  · simp [hq]
  · by_cases hdc : doomed x = true
    · simp [hq, hdc]
    · simp only [hq, hdc, Bool.false_eq_true, if_false]
      intro heq
      injection heq with heq
      subst heq
      exact hdc hd

/-- Field equations and guard facts of a successful restricted session
delete. -/
theorem deleteSessionsWhere_ok_parts {st : Store} {pred : Session → Bool} {st' : Store}
    (h : deleteSessionsWhere st pred = .ok st') :
    st'.users = st.users ∧
    st'.participants = st.participants ∧
    st'.diceRolls = st.diceRolls ∧
    st'.sessions = st.sessions.filter (fun s => !pred s) ∧
    st'.characters = st.characters.map (fun c =>
      match c.sessionId with
      | some sid =>
        if st.sessions.any (fun s => pred s && s.id == sid) then { c with sessionId := none }
        else c
      | none => c) ∧
    (st.participants.any (fun p =>
      st.sessions.any (fun s => pred s && s.id == p.sessionId)) = false) ∧
    (st.diceRolls.any (fun d =>
      st.sessions.any (fun s => pred s && s.id == d.sessionId)) = false) ∧
    st'.nextSessionId = st.nextSessionId := by
  simp only [deleteSessionsWhere] at h
  split at h
  · cases h
  · next hg =>
    injection h with h
    subst h
    rw [Bool.or_eq_true] at hg
    push_neg at hg
    obtain ⟨h1, h2⟩ := hg
    exact ⟨rfl, rfl, rfl, rfl, rfl, by simpa using h1, by simpa using h2, rfl⟩

/-- Field equations of a successful restricted user-row delete. -/
theorem deleteUserRow_ok_parts {st : Store} {uid : Nat} {st' : Store}
    (h : deleteUserRow st uid = .ok st') :
    st'.users = st.users.filter (fun u => !(u.id == uid)) ∧
    st'.participants = st.participants ∧
    st'.diceRolls = st.diceRolls ∧
    st'.characters = st.characters ∧
    st'.sessions = st.sessions ∧
    st'.nextSessionId = st.nextSessionId := by
  simp only [deleteUserRow] at h
  split at h
  · cases h
  · injection h with h
    subst h
    exact ⟨rfl, rfl, rfl, rfl, rfl, rfl⟩

/-- The SET-NULL pass changes only `characterId` of a participant row. -/
theorem participant_nullref_fields {l : List Participant} {doomed : Nat → Bool}
    {p : Participant}
    (hp : p ∈ l.map (fun q =>
      match q.characterId with
      | some c => if doomed c then { q with characterId := none } else q
      | none => q)) :
    ∃ q ∈ l, p.userId = q.userId ∧ p.sessionId = q.sessionId := by
  rw [List.mem_map] at hp
  obtain ⟨q, hq, rfl⟩ := hp
  refine ⟨q, hq, ?_, ?_⟩ <;>
  · rcases hqc : q.characterId with _ | c
    · simp [hqc]
    · by_cases hdc : doomed c = true <;> simp [hqc, hdc]

/-- The SET-NULL pass changes only `characterId` of a dice roll. -/
theorem diceRoll_nullref_fields {l : List DiceRoll} {doomed : Nat → Bool}
    {d : DiceRoll}
    (hp : d ∈ l.map (fun q =>
      match q.characterId with
      | some c => if doomed c then { q with characterId := none } else q
      | none => q)) :
    ∃ q ∈ l, d.userId = q.userId ∧ d.sessionId = q.sessionId := by
  rw [List.mem_map] at hp
  obtain ⟨q, hq, rfl⟩ := hp
  refine ⟨q, hq, ?_, ?_⟩ <;>
  · rcases hqc : q.characterId with _ | c
    · simp [hqc]
    · by_cases hdc : doomed c = true <;> simp [hqc, hdc]

/-- The SET-NULL pass changes only `sessionId` of a character. -/
theorem character_nullref_fields {l : List Character} {doomed : Nat → Bool}
    {c : Character}
    (hp : c ∈ l.map (fun q =>
      match q.sessionId with
      | some x => if doomed x then { q with sessionId := none } else q
      | none => q)) :
    ∃ q ∈ l, c.userId = q.userId := by
  rw [List.mem_map] at hp
  obtain ⟨q, hq, rfl⟩ := hp
  refine ⟨q, hq, ?_⟩
  rcases hqc : q.sessionId with _ | x
  · simp [hqc]
  · by_cases hdc : doomed x = true <;> simp [hqc, hdc]

theorem findCharacter_spec {st : Store} {cid : Nat} {c : Character}
    (h : findCharacter st cid = some c) : c ∈ st.characters ∧ c.id = cid := by
  refine ⟨List.mem_of_find?_eq_some h, ?_⟩
  have := List.find?_some h
  simpa using this

/-- A successful character delete leaves no participant or dice-roll
reference to the character, and the character row is gone. -/
theorem chDeleteCharacter_200_clean
    (st : Store) (uid cid : Nat) (stC : Store)
    (h : chDeleteCharacter st uid (some cid) = (200, stC)) :
    (∀ p ∈ stC.participants, p.characterId ≠ some cid) ∧
    (∀ d ∈ stC.diceRolls, d.characterId ≠ some cid) ∧
    findCharacter stC cid = none := by
  rcases hfc : findCharacter st cid with _ | c
  · simp only [chDeleteCharacter, hfc] at h
    simp at h
  · obtain ⟨hcm, hcid⟩ := findCharacter_spec hfc
    simp only [chDeleteCharacter, hfc] at h
    split at h
    · simp at h
    · simp only [Prod.mk.injEq, true_and] at h
      subst h
      simp only [deleteCharactersWhere, deleteDiceRollsWhere, deleteParticipantsWhere]
      have hd : (st.characters.any (fun c0 => (c0.id == cid) && c0.id == cid)) = true := by
        rw [List.any_eq_true]
        exact ⟨c, hcm, by simp [hcid]⟩
      refine ⟨?_, ?_, ?_⟩
      · intro p hp
        exact participant_nullref_no_doomed hp hd
      · intro d hd2
        exact diceRoll_nullref_no_doomed hd2 hd
      · refine List.find?_eq_none.mpr ?_
        intro x hx
        rw [List.mem_filter] at hx
        simpa using hx.2

/-- A successful session delete leaves no participant, dice-roll or
character reference to the session, and the session row is gone. -/
theorem scDeleteSession_200_clean
    (st : Store) (uid sid : Nat) (stS : Store)
    (h : scDeleteSession st uid (some sid) = (200, stS)) :
    (∀ p ∈ stS.participants, p.sessionId ≠ sid) ∧
    (∀ d ∈ stS.diceRolls, d.sessionId ≠ sid) ∧
    (∀ c ∈ stS.characters, c.sessionId ≠ some sid) ∧
    findSession stS sid = none := by
  rcases hfs : findSession st sid with _ | s
  · simp only [scDeleteSession, hfs] at h
    simp at h
  · have h2 := h
    simp only [scDeleteSession, hfs] at h2
    split at h2
    · simp at h2
    · next hg =>
      have hcond : s.gmId = uid ∨ (Option.map (fun p => p.role)
          (List.find? (fun p => p.userId == uid) (includedParticipants st sid))
            = some "admin") := by
        by_contra hno
        push_neg at hno
        apply hg
        simp [hno.1, hno.2]
      obtain ⟨_, hparts, hrolls, hsess, hchars⟩ := scDeleteSession_allowed st uid sid s hfs hcond
      have hS2 : (scDeleteSession st uid (some sid)).2 = stS := congrArg Prod.snd h
      rw [hS2] at hparts hrolls hsess hchars
      refine ⟨?_, ?_, hchars, ?_⟩
      · intro p hp
        rw [hparts, List.mem_filter] at hp
        simpa using hp.2
      · intro d hd
        rw [hrolls, List.mem_filter] at hd
        simpa using hd.2
      · rw [findSession, hsess]
        refine List.find?_eq_none.mpr ?_
        intro x hx
        rw [List.mem_filter] at hx
        simpa using hx.2

/-- A successful user delete leaves no reference to the user, to the
sessions they were GM of (deleted along), or to their characters (deleted
along), and the user row is gone. -/
theorem userDeleteUser_200_clean
    (st : Store) (actor tid : Nat) (stU : Store)
    (h : userDeleteUser st actor (some tid) = (200, stU)) :
    (∀ p ∈ stU.participants, p.userId ≠ tid) ∧
    (∀ d ∈ stU.diceRolls, d.userId ≠ tid) ∧
    (∀ c ∈ stU.characters, c.userId ≠ tid) ∧
    (∀ s ∈ stU.sessions, s.gmId ≠ tid) ∧
    findUser stU tid = none ∧
    (∀ s0 ∈ st.sessions, s0.gmId = tid →
      (∀ p ∈ stU.participants, p.sessionId ≠ s0.id) ∧
      (∀ d ∈ stU.diceRolls, d.sessionId ≠ s0.id) ∧
      (∀ c ∈ stU.characters, c.sessionId ≠ some s0.id)) ∧
    (∀ c0 ∈ st.characters, c0.userId = tid →
      (∀ p ∈ stU.participants, p.characterId ≠ some c0.id) ∧
      (∀ d ∈ stU.diceRolls, d.characterId ≠ some c0.id)) := by
  rcases hfu : findUser st tid with _ | target
  · simp only [userDeleteUser, hfu] at h
    simp at h
  · simp only [userDeleteUser, hfu] at h
    split at h
    · simp at h
    · split at h
      · simp at h
      · next st4 hms =>
        split at h
        · simp at h
        · next st5 hmu =>
          simp only [Prod.mk.injEq, true_and] at h
          subst h
          obtain ⟨hU4, hP4, hD4, hS4, hC4, hg1, hg2, _⟩ := deleteSessionsWhere_ok_parts hms
          obtain ⟨hU5, hP5, hD5, hC5, hS5, _⟩ := deleteUserRow_ok_parts hmu
          simp only [deleteCharactersWhere, deleteDiceRollsWhere, deleteParticipantsWhere]
            at hU4 hP4 hD4 hS4 hC4 hg1 hg2
          rw [hP4] at hP5
          rw [hD4] at hD5
          rw [hS4] at hS5
          rw [hC4] at hC5
          rw [hU4] at hU5
          refine ⟨?_, ?_, ?_, ?_, ?_, ?_, ?_⟩
          · intro p hp
            rw [hP5] at hp
            obtain ⟨q, hq, hqu, _⟩ := participant_nullref_fields hp
            rw [List.mem_filter] at hq
            rw [hqu]
            simpa using hq.2
          · intro d hd
            rw [hD5] at hd
            obtain ⟨q, hq, hqu, _⟩ := diceRoll_nullref_fields hd
            rw [List.mem_filter] at hq
            rw [hqu]
            simpa using hq.2
          · intro c hc
            rw [hC5] at hc
            obtain ⟨q, hq, hqu⟩ := character_nullref_fields hc
            rw [List.mem_filter] at hq
            rw [hqu]
            simpa using hq.2
          · intro s hs
            rw [hS5, List.mem_filter] at hs
            simpa using hs.2
          · rw [findUser, hU5]
            refine List.find?_eq_none.mpr ?_
            intro x hx
            rw [List.mem_filter] at hx
            simpa using hx.2
          · intro s0 hs0 hgm
            refine ⟨?_, ?_, ?_⟩
            · intro p hp
              rw [hP5] at hp
              intro hps
              have : ((st.participants.filter (fun p => !(p.userId == tid))).map (fun q =>
                  match q.characterId with
                  | some c => if (st.characters.any fun c0 => (c0.userId == tid) && c0.id == c)
                      then { q with characterId := none } else q
                  | none => q)).any (fun p =>
                    st.sessions.any (fun s => (s.gmId == tid) && s.id == p.sessionId))
                    = true := by
                rw [List.any_eq_true]
                refine ⟨p, hp, ?_⟩
                rw [List.any_eq_true]
                exact ⟨s0, hs0, by simp [hgm, hps]⟩
              rw [hg1] at this
              cases this
            · intro d hd
              rw [hD5] at hd
              intro hds
              have : ((st.diceRolls.filter (fun d => !(d.userId == tid))).map (fun q =>
                  match q.characterId with
                  | some c => if (st.characters.any fun c0 => (c0.userId == tid) && c0.id == c)
                      then { q with characterId := none } else q
                  | none => q)).any (fun d =>
                    st.sessions.any (fun s => (s.gmId == tid) && s.id == d.sessionId))
                    = true := by
                rw [List.any_eq_true]
                refine ⟨d, hd, ?_⟩
                rw [List.any_eq_true]
                exact ⟨s0, hs0, by simp [hgm, hds]⟩
              rw [hg2] at this
              cases this
            · intro c hc
              rw [hC5] at hc
              have hd : (st.sessions.any (fun s => (s.gmId == tid) && s.id == s0.id)) = true := by
                rw [List.any_eq_true]
                exact ⟨s0, hs0, by simp [hgm]⟩
              exact character_nullref_no_doomed hc hd
          · intro c0 hc0 hcu
            have hd : (st.characters.any (fun c => (c.userId == tid) && c.id == c0.id)) = true := by
              rw [List.any_eq_true]
              exact ⟨c0, hc0, by simp [hcu]⟩
            refine ⟨?_, ?_⟩
            · intro p hp
              rw [hP5] at hp
              exact participant_nullref_no_doomed hp hd
            · intro d hdm
              rw [hD5] at hdm
              exact diceRoll_nullref_no_doomed hdm hd

/-- C5: after any successful delete of a Session, User, or Character, no
SessionParticipant or DiceRoll row references the deleted entity — nor, for
a user delete, the sessions they were GM of or the characters they owned,
which are deleted along — and no Character retains a `sessionId` pointing
to a deleted Session. -/
theorem delete_cascade_clean
    (stA stB stC : Store) (uidA uidB uidC sid tid cid : Nat)
    (stA' stB' stC' : Store)
    (hA : scDeleteSession stA uidA (some sid) = (200, stA'))
    (hB : userDeleteUser stB uidB (some tid) = (200, stB'))
    (hC : chDeleteCharacter stC uidC (some cid) = (200, stC')) :
    ((∀ p ∈ stA'.participants, p.sessionId ≠ sid) ∧
     (∀ d ∈ stA'.diceRolls, d.sessionId ≠ sid) ∧
     (∀ c ∈ stA'.characters, c.sessionId ≠ some sid) ∧
     findSession stA' sid = none) ∧
    ((∀ p ∈ stB'.participants, p.userId ≠ tid) ∧
     (∀ d ∈ stB'.diceRolls, d.userId ≠ tid) ∧
     (∀ c ∈ stB'.characters, c.userId ≠ tid) ∧
     (∀ s ∈ stB'.sessions, s.gmId ≠ tid) ∧
     findUser stB' tid = none ∧
     (∀ s0 ∈ stB.sessions, s0.gmId = tid →
       (∀ p ∈ stB'.participants, p.sessionId ≠ s0.id) ∧
       (∀ d ∈ stB'.diceRolls, d.sessionId ≠ s0.id) ∧
       (∀ c ∈ stB'.characters, c.sessionId ≠ some s0.id)) ∧
     (∀ c0 ∈ stB.characters, c0.userId = tid →
       (∀ p ∈ stB'.participants, p.characterId ≠ some c0.id) ∧
       (∀ d ∈ stB'.diceRolls, d.characterId ≠ some c0.id))) ∧
    ((∀ p ∈ stC'.participants, p.characterId ≠ some cid) ∧
     (∀ d ∈ stC'.diceRolls, d.characterId ≠ some cid) ∧
     findCharacter stC' cid = none) :=
  ⟨scDeleteSession_200_clean stA uidA sid stA' hA,
   userDeleteUser_200_clean stB uidB tid stB' hB,
   chDeleteCharacter_200_clean stC uidC cid stC' hC⟩

/-- Witness for C5: the GM deletes session 1, user 2 deletes their own
account, and user 2 deletes their character — all succeed, and the session
lookup after the session delete finds nothing. -/
theorem delete_cascade_clean_witness :
    scDeleteSession storeSelfJoueur 10 (some 1)
      = (200, (scDeleteSession storeSelfJoueur 10 (some 1)).2) ∧
    userDeleteUser storeSelfJoueur 2 (some 2)
      = (200, (userDeleteUser storeSelfJoueur 2 (some 2)).2) ∧
    chDeleteCharacter storeWithCharacter 2 (some 1)
      = (200, (chDeleteCharacter storeWithCharacter 2 (some 1)).2) ∧
    findSession (scDeleteSession storeSelfJoueur 10 (some 1)).2 1 = none :=
  ⟨by decide, by decide, by decide,
   (delete_cascade_clean storeSelfJoueur storeSelfJoueur storeWithCharacter 10 2 2 1 2 1
      ((scDeleteSession storeSelfJoueur 10 (some 1)).2)
      ((userDeleteUser storeSelfJoueur 2 (some 2)).2)
      ((chDeleteCharacter storeWithCharacter 2 (some 1)).2)
      (by decide) (by decide) (by decide)).1.2.2.2⟩

/-! ## Preservation of the participant-uniqueness invariant (C6) -/

theorem WF_congr {st st' : Store} (h : WF st)
    (hp : st'.participants = st.participants)
    (hs : st'.sessions = st.sessions)
    (hn : st'.nextSessionId = st.nextSessionId) : WF st' := by
  unfold WF UniquePairs IdsBounded at h ⊢
  rw [hp, hs, hn]
  exact h

theorem WF_filterP {st st' : Store} (h : WF st) (pred : Participant → Bool)
    (hp : st'.participants = st.participants.filter pred)
    (hs : st'.sessions = st.sessions)
    (hn : st'.nextSessionId = st.nextSessionId) : WF st' := by
  unfold WF UniquePairs IdsBounded at h ⊢
  obtain ⟨h1, h2, h3⟩ := h
  rw [hp, hs, hn]
  refine ⟨List.Pairwise.sublist (List.filter_sublist _) h1, h2, ?_⟩
  intro p hpm
  rw [List.mem_filter] at hpm
  exact h3 p hpm.1

theorem WF_mapP {st st' : Store} (h : WF st) (f : Participant → Participant)
    (hf : ∀ p, (f p).sessionId = p.sessionId ∧ (f p).userId = p.userId)
    (hp : st'.participants = st.participants.map f)
    (hs : st'.sessions = st.sessions)
    (hn : st'.nextSessionId = st.nextSessionId) : WF st' := by
  unfold WF UniquePairs IdsBounded at h ⊢
  obtain ⟨h1, h2, h3⟩ := h
  rw [hp, hs, hn]
  refine ⟨?_, h2, ?_⟩
  · refine List.Pairwise.map f ?_ h1
    intro a b hab
    rcases hab with hx | hx
    · exact Or.inl (by rw [(hf a).1, (hf b).1]; exact hx)
    · exact Or.inr (by rw [(hf a).2, (hf b).2]; exact hx)
  · intro p hpm
    rw [List.mem_map] at hpm
    obtain ⟨q, hq, rfl⟩ := hpm
    rw [(hf q).1]
    exact h3 q hq

theorem WF_filterS {st st' : Store} (h : WF st) (pred : Session → Bool)
    (hp : st'.participants = st.participants)
    (hs : st'.sessions = st.sessions.filter pred)
    (hn : st'.nextSessionId = st.nextSessionId) : WF st' := by
  unfold WF UniquePairs IdsBounded at h ⊢
  obtain ⟨h1, h2, h3⟩ := h
  rw [hp, hs, hn]
  refine ⟨h1, ?_, h3⟩
  intro s hsm
  rw [List.mem_filter] at hsm
  exact h2 s hsm.1

/-- Inserting a participant row for a live session that has no row for this
user yet preserves well-formedness. -/
theorem WF_insertP {st : Store} (h : WF st) {sid uid : Nat} {cid : Option Nat}
    {role : String}
    (hsid : sid < st.nextSessionId)
    (hnone : findParticipantRow st sid uid = none) :
    WF (insertParticipant st sid uid cid role) := by
  unfold WF UniquePairs IdsBounded at h ⊢
  unfold insertParticipant
  obtain ⟨h1, h2, h3⟩ := h
  dsimp only
  refine ⟨?_, h2, ?_⟩
  · rw [List.pairwise_append]
    refine ⟨h1, List.pairwise_singleton _ _, ?_⟩
    intro p hp q hq
    rw [List.mem_singleton] at hq
    subst hq
    have hn := List.find?_eq_none.mp hnone p hp
    by_cases h4 : p.sessionId = sid
    · refine Or.inr ?_
      intro h5
      exact hn (by simp [h4, h5])
    · exact Or.inl h4
  · intro p hpm
    rw [List.mem_append] at hpm
    rcases hpm with hpm | hpm
    · exact h3 p hpm
    · rw [List.mem_singleton] at hpm
      subst hpm
      exact hsid

theorem WF_mapS {st st' : Store} (h : WF st) (f : Session → Session)
    (hf : ∀ s, (f s).id = s.id)
    (hp : st'.participants = st.participants)
    (hs : st'.sessions = st.sessions.map f)
    (hn : st'.nextSessionId = st.nextSessionId) : WF st' := by
  unfold WF UniquePairs IdsBounded at h ⊢
  obtain ⟨h1, h2, h3⟩ := h
  rw [hp, hs, hn]
  refine ⟨h1, ?_, h3⟩
  intro s hsm
  rw [List.mem_map] at hsm
  obtain ⟨q, hq, rfl⟩ := hsm
  rw [hf q]
  exact h2 q hq

theorem WF_scUpdateSession (st : Store) (uid : Nat) (idp : Option Nat)
    (req : SessionUpdateReq) (h : WF st) : WF (scUpdateSession st uid idp req).2 := by
  unfold scUpdateSession
  rcases idp with _ | sid
  · exact h
  rcases hfs : findSession st sid with _ | s <;> simp only [hfs]
  · exact h
  split
  · exact h
  · refine WF_mapS h _ ?_ rfl rfl rfl
    intro s'
    by_cases hid : (s'.id == sid) = true <;> simp [hid, applySessionUpdate]

theorem WF_userUpdateUser (st : Store) (uid : Nat) (idp : Option Nat)
    (req : UserUpdateReq) (h : WF st) : WF (userUpdateUser st uid idp req).2 := by
  unfold userUpdateUser
  rcases idp with _ | tid
  · exact h
  rcases hfu : findUser st tid with _ | u <;> simp only [hfu]
  · exact h
  split
  · exact h
  · refine WF_congr h ?_ ?_ ?_ <;> ((repeat' split) <;> rfl)

theorem WF_chUpdateCharacter (st : Store) (uid : Nat) (idp : Option Nat)
    (req : CharacterUpdateReq) (h : WF st) : WF (chUpdateCharacter st uid idp req).2 := by
  unfold chUpdateCharacter
  rcases idp with _ | cid
  · exact h
  rcases hfc : findCharacter st cid with _ | c <;> simp only [hfc]
  · exact h
  split
  · exact h
  split
  · exact h
  split
  · exact WF_congr h rfl rfl rfl
  · exact h

theorem WF_rollDice (st : Store) (uid : Nat) (req : RollReq) (rng : Nat → Nat)
    (h : WF st) : WF (rollDice st uid req rng).2 := by
  unfold rollDice
  split
  · exact h
  dsimp only
  split
  · exact h
  rcases hfs : findSession st (req.sessionId.getD 0) with _ | s <;> simp only [hfs]
  · exact h
  split
  · exact h
  split
  · exact h
  rcases hcr : calculateDiceRoll rng (req.expression.getD "") with _ | outcome <;>
    simp only [hcr]
  · exact h
  split
  · exact WF_congr h rfl rfl rfl
  · exact h

theorem WF_scRemoveParticipant (st : Store) (uid : Nat) (idp pidp : Option Nat)
    (h : WF st) : WF (scRemoveParticipant st uid idp pidp).2 := by
  unfold scRemoveParticipant
  rcases idp with _ | sid
  · exact h
  rcases pidp with _ | pid
  · exact h
  rcases hfs : findSession st sid with _ | s <;> simp only [hfs]
  · exact h
  rcases hfp : findParticipant st pid with _ | p <;> simp only [hfp]
  · exact h
  split
  · exact h
  split
  · exact h
  · exact WF_filterP h _ rfl rfl rfl

theorem WF_spcUpdateParticipant (st : Store) (uid : Nat) (idp : Option Nat)
    (body : SpcUpdateBody) (h : WF st) : WF (spcUpdateParticipant st uid idp body).2 := by
  unfold spcUpdateParticipant
  rcases idp with _ | pid
  · exact h
  dsimp only
  by_cases hck : (body.role.isNone && body.characterId.isNone) = true
  · rw [if_pos hck]
    exact h
  rw [if_neg hck]
  rcases hfp : findParticipant st pid with _ | p <;> simp only [hfp]
  · exact h
  rcases hfs : findSession st p.sessionId with _ | s <;> simp only [hfs]
  · exact h
  split
  · exact h
  split
  · exact h
  refine WF_mapP h _ ?_ rfl rfl rfl
  intro q
  by_cases hid : (q.id == pid) = true <;> simp [hid]

theorem WF_deleteParticipantsWhere {st : Store} (h : WF st) (pred : Participant → Bool) :
    WF (deleteParticipantsWhere st pred) :=
  WF_filterP h _ rfl rfl rfl

theorem WF_deleteDiceRollsWhere {st : Store} (h : WF st) (pred : DiceRoll → Bool) :
    WF (deleteDiceRollsWhere st pred) :=
  WF_congr h rfl rfl rfl

theorem WF_deleteCharactersWhere {st : Store} (h : WF st) (pred : Character → Bool) :
    WF (deleteCharactersWhere st pred) := by
  refine WF_mapP h _ ?_ rfl rfl rfl
  intro p
  rcases hq : p.characterId with _ | c
  · simp [hq]
  · simp only [hq]
    split <;> simp

theorem WF_deleteSessionsWhere_ok {st st' : Store} {pred : Session → Bool}
    (hok : deleteSessionsWhere st pred = .ok st') (h : WF st) : WF st' := by
  obtain ⟨_, hP, _, hS, _, _, _, hN⟩ := deleteSessionsWhere_ok_parts hok
  exact WF_filterS h _ hP hS hN

theorem WF_deleteUserRow_ok {st st' : Store} {uid : Nat}
    (hok : deleteUserRow st uid = .ok st') (h : WF st) : WF st' := by
  obtain ⟨_, hP, _, _, hS, hN⟩ := deleteUserRow_ok_parts hok
  exact WF_congr h hP hS hN

theorem WF_chDeleteCharacter (st : Store) (uid : Nat) (idp : Option Nat)
    (h : WF st) : WF (chDeleteCharacter st uid idp).2 := by
  unfold chDeleteCharacter
  rcases idp with _ | cid
  · exact h
  rcases hfc : findCharacter st cid with _ | c <;> simp only [hfc]
  · exact h
  split
  · exact h
  · exact WF_deleteCharactersWhere
      (WF_deleteDiceRollsWhere
        (WF_deleteParticipantsWhere h (fun p => p.characterId == some cid))
        (fun d => d.characterId == some cid))
      (fun c => c.id == cid)

theorem WF_scDeleteSession (st : Store) (uid : Nat) (idp : Option Nat)
    (h : WF st) : WF (scDeleteSession st uid idp).2 := by
  unfold scDeleteSession
  rcases idp with _ | sid
  · exact h
  rcases hfs : findSession st sid with _ | s <;> simp only [hfs]
  · exact h
  split
  · exact h
  have h2 : WF (deleteDiceRollsWhere
      (deleteParticipantsWhere st (fun p => p.sessionId == sid))
      (fun d => d.sessionId == sid)) :=
    WF_deleteDiceRollsWhere
      (WF_deleteParticipantsWhere h (fun p => p.sessionId == sid))
      (fun d => d.sessionId == sid)
  split
  · next hms => exact WF_congr h2 rfl rfl rfl
  · next st4 hms => exact WF_deleteSessionsWhere_ok hms (WF_congr h2 rfl rfl rfl)

theorem WF_userDeleteUser (st : Store) (uid : Nat) (idp : Option Nat)
    (h : WF st) : WF (userDeleteUser st uid idp).2 := by
  unfold userDeleteUser
  rcases idp with _ | tid
  · exact h
  rcases hfu : findUser st tid with _ | u <;> simp only [hfu]
  · exact h
  split
  · exact h
  have h3 : WF (deleteCharactersWhere
      (deleteDiceRollsWhere
        (deleteParticipantsWhere st (fun p => p.userId == tid))
        (fun d => d.userId == tid))
      (fun c => c.userId == tid)) :=
    WF_deleteCharactersWhere
      (WF_deleteDiceRollsWhere
        (WF_deleteParticipantsWhere h (fun p => p.userId == tid))
        (fun d => d.userId == tid))
      (fun c => c.userId == tid)
  split
  · next hms => exact h3
  · next st4 hms =>
    have h4 : WF st4 := WF_deleteSessionsWhere_ok hms h3
    split
    · next hmu => exact h4
    · next st5 hmu => exact WF_deleteUserRow_ok hmu h4

theorem WF_scCreateSession (st : Store) (uid : Nat) (req : SessionCreateReq)
    (h : WF st) : WF (scCreateSession st uid req).2 := by
  unfold scCreateSession
  split
  · exact h
  split
  · exact h
  dsimp only
  refine WF_insertP ?_ ?_ ?_
  · unfold WF UniquePairs IdsBounded at h ⊢
    obtain ⟨h1, h2, h3⟩ := h
    dsimp only
    refine ⟨h1, ?_, ?_⟩
    · intro s hsm
      rw [List.mem_append] at hsm
      rcases hsm with hsm | hsm
      · exact Nat.lt_succ_of_lt (h2 s hsm)
      · rw [List.mem_singleton] at hsm
        subst hsm
        exact Nat.lt_succ_self _
    · intro p hpm
      exact Nat.lt_succ_of_lt (h3 p hpm)
  · exact Nat.lt_succ_self _
  · refine List.find?_eq_none.mpr ?_
    intro p hp hcontra
    rw [Bool.and_eq_true] at hcontra
    have hps : p.sessionId = st.nextSessionId := by simpa using hcontra.1
    have := h.2.2 p hp
    omega

theorem WF_scAddParticipant (st : Store) (uid : Nat) (idp : Option Nat)
    (body : AddParticipantBody) (h : WF st) : WF (scAddParticipant st uid idp body).2 := by
  unfold scAddParticipant
  rcases idp with _ | sid
  · exact h
  dsimp only
  split
  · exact h
  rcases hfs : findSession st sid with _ | s <;> simp only [hfs]
  · exact h
  split
  · exact h
  split
  · exact h
  split
  · exact h
  split
  · exact h
  · next hnone =>
    split
    · exact h
    · refine WF_insertP h ?_ hnone
      have hmem := findSession_mem hfs
      have hid := findSession_id hfs
      exact hid ▸ h.2.1 s hmem

theorem WF_spcAddParticipant (st : Store) (uid : Nat) (body : SpcAddBody)
    (h : WF st) : WF (spcAddParticipant st uid body).2 := by
  unfold spcAddParticipant
  split
  · exact h
  dsimp only
  rcases hfs : findSession st (body.sessionId.getD 0) with _ | s <;> simp only [hfs]
  · exact h
  split
  · exact h
  split
  · exact h
  split
  · exact h
  split
  · exact h
  · next hnone =>
    split
    · exact h
    · refine WF_insertP h ?_ hnone
      have hmem := findSession_mem hfs
      have hid := findSession_id hfs
      exact hid ▸ h.2.1 s hmem

theorem WF_chAssociateWithSession (st : Store) (uid : Nat) (idp : Option Nat)
    (body : AssignSessionBody) (h : WF st) : WF (chAssociateWithSession st uid idp body).2 := by
  unfold chAssociateWithSession
  rcases idp with _ | cid
  · exact h
  rcases body.sessionId with _ | v
  · exact h
  dsimp only
  rcases hfc : findCharacterOwned st cid uid with _ | c <;> simp only [hfc]
  · exact h
  rcases v with _ | n
  · exact WF_congr h rfl rfl rfl
  · dsimp only
    by_cases hn : (n == 0) = true <;> simp only [hn, Bool.false_eq_true, if_true, if_false]
    · exact WF_congr h rfl rfl rfl
    · rcases hfs : findSession st n with _ | session <;> simp only [hfs]
      · exact h
      split
      · exact h
      have hst1 : WF { st with
          characters := st.characters.map (fun c0 =>
            if c0.id == cid then { c0 with sessionId := some n } else c0) } :=
        WF_congr h rfl rfl rfl
      split
      · exact WF_mapP hst1 _ (fun q => by constructor <;> split <;> rfl) rfl rfl rfl
      · next hnone =>
        refine WF_insertP hst1 ?_ hnone
        have hmem := findSession_mem hfs
        have hid := findSession_id hfs
        exact hid ▸ h.2.1 session hmem

/-- Every modelled operation preserves well-formedness. -/
theorem WF_applyOp (st : Store) (op : Op) (h : WF st) : WF (applyOp st op) := by
  cases op with
  | createSession uid req => exact WF_scCreateSession st uid req h
  | scAddP uid idp body => exact WF_scAddParticipant st uid idp body h
  | spcAddP uid body => exact WF_spcAddParticipant st uid body h
  | assignSession uid idp body => exact WF_chAssociateWithSession st uid idp body h
  | spcUpdateP uid idp body => exact WF_spcUpdateParticipant st uid idp body h
  | scRemoveP uid idp pidp => exact WF_scRemoveParticipant st uid idp pidp h
  | updSession uid idp req => exact WF_scUpdateSession st uid idp req h
  | delSession uid idp => exact WF_scDeleteSession st uid idp h
  | updUser uid idp req => exact WF_userUpdateUser st uid idp req h
  | delUser uid idp => exact WF_userDeleteUser st uid idp h
  | updCharacter uid idp req => exact WF_chUpdateCharacter st uid idp req h
  | delCharacter uid idp => exact WF_chDeleteCharacter st uid idp h
  | roll uid req rng => exact WF_rollDice st uid req rng h

theorem WF_applyOps (st : Store) (ops : List Op) (h : WF st) : WF (applyOps st ops) := by
  induction ops generalizing st with
  | nil => exact h
  | cons op rest ih => exact ih _ (WF_applyOp st op h)

/-- C6: from a well-formed store (no duplicate `(sessionId, userId)` pairs,
plus the auto-increment freshness of session ids that the database's serial
column guarantees), any sequence of sequentially executed operations leaves
no two participant rows sharing a `(sessionId, userId)` pair; in particular
every single operation — including session creation's auto-enrollment, both
add-participant entry points and character-to-session association —
preserves the uniqueness. -/
theorem participant_pair_unique_after_ops
    (init : Store) (ops : List Op) (h : WF init) :
    UniquePairs (applyOps init ops) ∧
    (∀ st : Store, WF st → ∀ op : Op, UniquePairs (applyOp st op)) :=
  ⟨(WF_applyOps init ops h).1, fun st hst op => (WF_applyOp st op hst).1⟩

/-- Witness for C6: a concrete three-call run — user 2 creates a session,
self-enrolls into session 1 requesting "admin", and the GM registers
themselves through the other entry point — keeps the pairs unique. -/
theorem participant_pair_unique_witness :
    WF storeNoParts ∧
    UniquePairs (applyOps storeNoParts
      [Op.createSession 2
        { title := some "New", description := none, scheduledAt := none, status := none },
       Op.scAddP 2 (some 1)
        { userId := some 2, characterId := none, role := some "admin" },
       Op.spcAddP 10
        { sessionId := some 1, userId := some 10, characterId := none, role := some "mj" }]) := by
  have hwf : WF storeNoParts := by
    refine ⟨?_, ?_, ?_⟩ <;> simp [UniquePairs, IdsBounded, storeNoParts, demoSession]
  exact ⟨hwf,
    (participant_pair_unique_after_ops storeNoParts
      [Op.createSession 2
        { title := some "New", description := none, scheduledAt := none, status := none },
       Op.scAddP 2 (some 1)
        { userId := some 2, characterId := none, role := some "admin" },
       Op.spcAddP 10
        { sessionId := some 1, userId := some 10, characterId := none, role := some "mj" }]
      hwf).1⟩

end RPGApi
